import Mathlib

/-!
Verification of the OpenAPI-to-test-plan core: a shallow embedding of
`app/openapi_parser.py` (spec normalization) and of the deterministic mock
generator in `app/generator/llm_client.py` (`MockLLMClient`), together with
proofs of the specified properties.

JSON/YAML values are modelled by `JValue`; Python dicts are association lists
with string keys (JSON object keys are strings), where assignment overwrites
in place and appends new keys at the end, exactly like Python dict update.
Functions that in Python can hit a dynamic `AttributeError`/`TypeError` on
duck-typed access return `Except` with a dedicated error constructor.
The mutually recursive example-value synthesis carries an explicit recursion
budget (`fuel`); running out of fuel models a Python recursion that has not
returned within that call depth.
-/

/-- A JSON/YAML value as produced by `json.loads` / `yaml.safe_load`.
Floats are kept separate from ints (`1` vs `1.0` in Python); the only float
produced by the core is the literal `1.0`, so an integral mantissa suffices. -/
inductive JValue where
  | null
  | bool (b : Bool)
  | int (n : Int)
  | float (m : Int)
  | str (s : String)
  | arr (elems : List JValue)
  | obj (fields : List (String × JValue))

/-- Python truthiness of a value (`bool(v)`). -/
def JValue.truthy : JValue → Bool
  | .null => false
  | .bool b => b
  | .int n => n != 0
  | .float m => m != 0
  | .str s => s ≠ ""
  | .arr xs => !xs.isEmpty
  | .obj kvs => !kvs.isEmpty

/-- Lookup in a Python dict (keys are unique, so first match). -/
def dictLookup (d : List (String × JValue)) (k : String) : Option JValue :=
  match d with
  | [] => none
  | kv :: rest => if kv.1 = k then some kv.2 else dictLookup rest k

/-- `k in d` for a Python dict. -/
def dictHasKey (d : List (String × JValue)) (k : String) : Bool :=
  d.any (fun kv => kv.1 == k)

/-- Python dict assignment `d[k] = v`: overwrite in place, else append. -/
def dictInsert (d : List (String × JValue)) (k : String) (v : JValue) :
    List (String × JValue) :=
  match d with
  | [] => [(k, v)]
  | kv :: rest => if kv.1 = k then (k, v) :: rest else kv :: dictInsert rest k v

/-- Errors of the generator layer: `outOfFuel` models a recursion that has not
returned within the given depth budget; `attrError` models a Python
`AttributeError`/`TypeError` from duck-typed access. -/
inductive GenErr where
  | outOfFuel
  | attrError

/-- Python `v.get(k, d)`: only mappings have `.get`. -/
def pyGet (v : JValue) (k : String) (d : JValue) : Except GenErr JValue :=
  match v with
  | .obj kvs => .ok ((dictLookup kvs k).getD d)
  | _ => .error .attrError

/-- Python `v[k]` for a string key (used only after a membership check, so a
mapping lookup cannot miss; non-mappings raise). -/
def pyIndex (v : JValue) (k : String) : Except GenErr JValue :=
  match v with
  | .obj kvs =>
    match dictLookup kvs k with
    | some x => .ok x
    | none => .error .attrError
  | _ => .error .attrError

/-- Python value equality against a string literal: in Python, `x == s` for a
string `s` is `True` exactly when `x` is an equal string (no cross-type
coercion involves `str`). -/
def jvalIsStr (v : JValue) (s : String) : Bool :=
  match v with
  | .str t => t == s
  | _ => false

/-- `sub` occurs as a substring of `s` (Python `sub in s` for strings). -/
def strContainsSub (s sub : String) : Bool :=
  go s.data
where
  go : List Char → Bool
    | [] => sub.data.isPrefixOf ([] : List Char)
    | c :: rest => sub.data.isPrefixOf (c :: rest) || go rest

/-- Python `s in container` for a string `s`: key membership for dicts,
element membership for lists (equality with a non-string is `False`),
substring for strings; anything else raises `TypeError`. -/
def pyContainsStr (container : JValue) (s : String) : Except GenErr Bool :=
  match container with
  | .obj kvs => .ok (dictHasKey kvs s)
  | .arr xs => .ok (xs.any (fun x => jvalIsStr x s))
  | .str t => .ok (strContainsSub t s)
  | _ => .error .attrError

/-- Python `s.strip(c)` for a single character. -/
def pyStripChar (s : String) (c : Char) : String :=
  String.mk (((s.data.dropWhile (fun x => x == c)).reverse.dropWhile
    (fun x => x == c)).reverse)

/-- Python `s.replace(old, new)` for single-character pattern and replacement
(the source only replaces the character `/` by `_`). -/
def pyReplaceChar (s : String) (old new : Char) : String :=
  String.mk (s.data.map (fun x => if x == old then new else x))

/-- Helper for `pySplitOnChar`: accumulate the current piece. -/
def pySplitOnCharAux (c : Char) : List Char → List Char → List String
  | [], acc => [String.mk acc.reverse]
  | x :: xs, acc =>
    if x == c then String.mk acc.reverse :: pySplitOnCharAux c xs []
    else pySplitOnCharAux c xs (x :: acc)

/-- Python `s.split(c)` for a single-character separator (the source only
splits on `/`); like Python, `"".split("/") == [""]`. -/
def pySplitOnChar (s : String) (c : Char) : List String :=
  pySplitOnCharAux c s.data []

/-- Python `s.lower()` restricted to ASCII (HTTP method names). -/
def asciiLowerChar (c : Char) : Char :=
  if 'A' ≤ c ∧ c ≤ 'Z' then Char.ofNat (c.toNat + 32) else c

/-- Python `s.lower()` restricted to ASCII (HTTP method names). -/
def asciiLower (s : String) : String :=
  String.mk (s.data.map asciiLowerChar)

/-- Python `s.startswith(p)`. -/
def pyStartsWith (s p : String) : Bool :=
  p.data.isPrefixOf s.data

/-- Decimal rendering of a status code for the generated assertion strings
(`f-string` interpolation of an `int`; status codes are non-negative). -/
def intToDecimal (n : Int) : String :=
  if n < 0 then "-" ++ natToDecimal n.natAbs else natToDecimal n.natAbs
where
  natDigits : Nat → Nat → List Char
    | 0, _ => []
    | fuel + 1, n =>
      if n = 0 then [] else natDigits fuel (n / 10) ++ [Char.ofNat (n % 10 + 48)]
  natToDecimal (n : Nat) : String :=
    if n = 0 then "0" else String.mk (natDigits n n)

/-! ## The normalized model (`app/openapi_parser.py` dataclasses)

These mirror the dataclasses `Parameter`, `RequestBody`, `Response`,
`Endpoint`, `NormalizedSpec` with their declared field types; `example`
fields are `Any` in the source and stay `JValue` (`None` is `.null`; the field
is called `exampleVal` here because `example` is a Lean keyword).
The generator below consumes exactly this model. -/

structure Parameter where
  name : String
  location : String
  required : Bool := false
  schema_type : String := "string"
  description : Option String := none
  exampleVal : JValue := .null

structure RequestBody where
  content_type : String := "application/json"
  schema : JValue := .obj []
  required : Bool := false
  exampleVal : JValue := .null

structure Response where
  status_code : Int
  description : String := ""
  schema : Option JValue := none
  exampleVal : JValue := .null

structure Endpoint where
  path : String
  method : String
  operation_id : Option String := none
  summary : Option String := none
  description : Option String := none
  tags : List String := []
  parameters : List Parameter := []
  request_body : Option RequestBody := none
  responses : List Response := []

structure NormalizedSpec where
  title : String
  version : String
  description : Option String := none
  base_url : Option String := none
  endpoints : List Endpoint := []
  schemas : List (String × JValue) := []

structure GeneratedTestCase where
  name : String
  description : String
  method : String
  path : String
  expected_status : Int
  request_body : Option JValue := none
  path_params : Option (List (String × JValue)) := none
  query_params : Option (List (String × JValue)) := none
  assertions : List String := []

structure GeneratedTestPlan where
  endpoint_path : String
  endpoint_method : String
  test_cases : List GeneratedTestCase

/-! ## MockLLMClient (`app/generator/llm_client.py`) -/

/-- `MockLLMClient._generate_example_value`: the `type_examples` table with
default `"test-value"`. -/
def generateExampleValue (schemaType : String) : JValue :=
  if schemaType = "string" then .str "test-string"
  else if schemaType = "integer" then .int 1
  else if schemaType = "number" then .float 1
  else if schemaType = "boolean" then .bool true
  else if schemaType = "uuid" then .str "123e4567-e89b-12d3-a456-426614174000"
  else .str "test-value"

/-- The body of `MockLLMClient._generate_example_body`, abstracted over the
recursive call to `_schema_to_value` (`stv`): include a property when it is
in `required` or the `required` list is falsy, with the recursively
synthesized value. -/
def exampleBodyWith (stv : JValue → Except GenErr JValue) (schema : JValue) :
    Except GenErr JValue :=
  if ¬ schema.truthy then .ok (.obj [])
  else do
    let properties ← pyGet schema "properties" (.obj [])
    let required ← pyGet schema "required" (.arr [])
    match properties with
    | .obj props =>
      let body ← props.foldlM
        (fun (body : List (String × JValue)) kv => do
          let isReq ← pyContainsStr required kv.1
          if isReq || !required.truthy then do
            let v ← stv kv.2
            pure (dictInsert body kv.1 v)
          else pure body) []
      .ok (.obj body)
    | _ => .error .attrError

/-- `MockLLMClient._schema_to_value`. The first argument is the recursion
budget: each nested `_schema_to_value` frame in the Python source consumes
one unit, so an `.error .outOfFuel` result for every budget means the Python
recursion never returns. The mutual recursion with `_generate_example_body`
is folded in through `exampleBodyWith`. -/
def schemaToValue : Nat → JValue → List (String × JValue) → Except GenErr JValue
  | 0, _, _ => .error .outOfFuel
  | n + 1, schema, allSchemas =>
    if ¬ schema.truthy then .ok .null
    else do
      let hasRef ← pyContainsStr schema "$ref"
      if hasRef then do
        let refv ← pyIndex schema "$ref"
        match refv with
        | .str r =>
          let refName := (pySplitOnChar r '/').getLastD r
          match dictLookup allSchemas refName with
          | some target =>
            exampleBodyWith (fun s => schemaToValue n s allSchemas) target
          | none => .ok (.obj [])
        | _ => .error .attrError
      else do
        let hasExample ← pyContainsStr schema "example"
        if hasExample then pyIndex schema "example"
        else do
          let schemaType ← pyGet schema "type" (.str "string")
          if jvalIsStr schemaType "object" then
            exampleBodyWith (fun s => schemaToValue n s allSchemas) schema
          else if jvalIsStr schemaType "array" then do
            let items ← pyGet schema "items" (.obj [])
            let v ← schemaToValue n items allSchemas
            .ok (.arr [v])
          else if jvalIsStr schemaType "string" then do
            let fmt ← pyGet schema "format" .null
            if jvalIsStr fmt "uuid" then .ok (.str "123e4567-e89b-12d3-a456-426614174000")
            else .ok (.str "test-string")
          else if jvalIsStr schemaType "integer" then .ok (.int 1)
          else if jvalIsStr schemaType "number" then .ok (.float 1)
          else if jvalIsStr schemaType "boolean" then .ok (.bool true)
          else .ok .null

/-- `MockLLMClient._generate_example_body` with a recursion budget for the
`_schema_to_value` calls it makes. -/
def generateExampleBody (fuel : Nat) (schema : JValue)
    (allSchemas : List (String × JValue)) : Except GenErr JValue :=
  exampleBodyWith (fun s => schemaToValue fuel s allSchemas) schema

/-- Status selection of `MockLLMClient._generate_happy_path`: the default 200
is replaced by the first declared response whose status is in
{200, 201, 204}, scanning in declaration order. -/
def happyStatus : List Response → Int
  | [] => 200
  | r :: rs =>
    if r.status_code = 200 ∨ r.status_code = 201 ∨ r.status_code = 204 then
      r.status_code
    else happyStatus rs

/-- Value chosen for one path parameter by `_generate_happy_path`: the
declared example when truthy (`if param.example:`), else the type-based
example. -/
def happyParamValue (p : Parameter) : JValue :=
  if p.exampleVal.truthy then p.exampleVal
  else generateExampleValue p.schema_type

/-- Path-parameter loop of `MockLLMClient._generate_happy_path`: for each
parameter with location `path`, assign `happyParamValue`. -/
def happyPathParams (params : List Parameter) : List (String × JValue) :=
  params.foldl
    (fun acc p =>
      if p.location = "path" then dictInsert acc p.name (happyParamValue p)
      else acc) []

/-- The derived operation id used when `operationId` is absent or falsy:
`{method_lower}_{path.replace("/", "_").strip("_")}`. -/
def derivedOperationId (ep : Endpoint) : String :=
  asciiLower ep.method ++ "_" ++ pyStripChar (pyReplaceChar ep.path '/' '_') '_'

/-- `endpoint.operation_id or derived` (Python `or` is truthiness-based, so an
empty-string operation id also falls back to the derived one). -/
def effectiveOperationId (ep : Endpoint) : String :=
  match ep.operation_id with
  | some s => if s = "" then derivedOperationId ep else s
  | none => derivedOperationId ep

/-- Request-body synthesis step of `MockLLMClient._generate_happy_path`:
`request_body` stays `None` unless the endpoint has one (a dataclass
instance is always truthy), else it is the synthesized example body. -/
def happyRequestBody (fuel : Nat) (endpoint : Endpoint) (spec : NormalizedSpec) :
    Except GenErr (Option JValue) :=
  match endpoint.request_body with
  | none => .ok none
  | some rb => (generateExampleBody fuel rb.schema spec.schemas).map some

/-- `MockLLMClient._generate_happy_path`. In the source it is annotated
`Optional` but always returns a test case; failure here is only the
propagated synthesis error or exhausted recursion budget. -/
def generateHappyPath (fuel : Nat) (endpoint : Endpoint) (spec : NormalizedSpec) :
    Except GenErr GeneratedTestCase :=
  (happyRequestBody fuel endpoint spec).map (fun requestBody =>
    { name := "test_" ++ effectiveOperationId endpoint ++ "_success"
      description := "Test successful " ++ endpoint.method ++ " " ++ endpoint.path
      method := endpoint.method
      path := endpoint.path
      expected_status := happyStatus endpoint.responses
      request_body := requestBody
      path_params :=
        if (happyPathParams endpoint.parameters).isEmpty then none
        else some (happyPathParams endpoint.parameters)
      query_params := none
      assertions :=
        ["assert response.status_code == " ++ intToDecimal (happyStatus endpoint.responses)] ++
          (if happyStatus endpoint.responses ≠ 204 then
            ["assert response.json() is not None"]
          else []) })

/-- `MockLLMClient._generate_not_found_test` (the source returns `None` on
each failed guard; the guards are stated positively here). -/
def generateNotFoundTest (endpoint : Endpoint) : Option GeneratedTestCase :=
  if endpoint.method = "GET" ∨ endpoint.method = "PUT" ∨ endpoint.method = "DELETE" then
    let pathParams := endpoint.parameters.filter (fun p => p.location = "path")
    if pathParams.isEmpty then none
    else if endpoint.responses.any (fun r => r.status_code == 404) then
      some {
        name := "test_" ++ effectiveOperationId endpoint ++ "_not_found"
        description := "Test " ++ endpoint.method ++ " " ++ endpoint.path ++
          " with non-existent resource"
        method := endpoint.method
        path := endpoint.path
        expected_status := 404
        request_body := none
        path_params := some (pathParams.foldl
          (fun d p => dictInsert d p.name (.str "nonexistent-id-12345")) [])
        query_params := none
        assertions := ["assert response.status_code == 404"] }
    else none
  else none

/-- `MockLLMClient._generate_validation_error_test` (guards stated
positively). -/
def generateValidationErrorTest (endpoint : Endpoint) : Option GeneratedTestCase :=
  if endpoint.method = "POST" ∨ endpoint.method = "PUT" ∨ endpoint.method = "PATCH" then
    if endpoint.request_body.isSome ∧
        endpoint.responses.any (fun r => r.status_code == 422) then
      some {
      name := "test_" ++ effectiveOperationId endpoint ++ "_validation_error"
      description := "Test " ++ endpoint.method ++ " " ++ endpoint.path ++
        " with invalid/missing required fields"
      method := endpoint.method
      path := endpoint.path
      expected_status := 422
      request_body := some (.obj [])
      path_params := none
      query_params := none
      assertions := ["assert response.status_code == 422"] }
    else none
  else none

/-- `MockLLMClient.generate_test_plan`: happy path (a dataclass instance is
always truthy, so always appended), then the optional not-found and
validation-error cases. -/
def generateTestPlan (fuel : Nat) (endpoint : Endpoint) (spec : NormalizedSpec) :
    Except GenErr GeneratedTestPlan :=
  (generateHappyPath fuel endpoint spec).map (fun happyPath =>
    { endpoint_path := endpoint.path
      endpoint_method := endpoint.method
      test_cases := [happyPath] ++ (generateNotFoundTest endpoint).toList ++
        (generateValidationErrorTest endpoint).toList })

/-- `MockLLMClient.generate_tests_for_spec`. -/
def generateTestsForSpec (fuel : Nat) (spec : NormalizedSpec) :
    Except GenErr (List GeneratedTestPlan) :=
  spec.endpoints.mapM (fun ep => generateTestPlan fuel ep spec)


/-! ## Raw-document layer (`app/openapi_parser.py`)

`normalize_spec` and its helpers walk the parsed YAML/JSON document with
duck-typed mapping access; this layer embeds them over `JValue` documents.
The helpers run in `Option`: `none` models the dynamic
`AttributeError`/`TypeError` a wrongly-typed field raises. `normalizeSpec`
itself runs in `Except PyErr` and distinguishes the single spec-error
exception (`OpenAPIParseError`, constructor `parse` with its message) from
a propagated dynamic error (`dynamic`); by construction the helpers can
never produce the spec error, exactly as in the source, where only
`normalize_spec` raises `OpenAPIParseError`. Fields that the source stores
without any type check are kept as `JValue` in the `Raw*` records. -/

inductive PyErr where
  | parse (msg : String)
  | dynamic

/-- Python `v.get(k, d)` in the raw layer. -/
def pyGetP (v : JValue) (k : String) (d : JValue) : Option JValue :=
  match v with
  | .obj kvs => some ((dictLookup kvs k).getD d)
  | _ => none

/-- Python `v[k]` in the raw layer. -/
def pyIndexP (v : JValue) (k : String) : Option JValue :=
  match v with
  | .obj kvs => dictLookup kvs k
  | _ => none

/-- Python `s in v` in the raw layer. -/
def pyInP (v : JValue) (s : String) : Option Bool :=
  match v with
  | .obj kvs => some (dictHasKey kvs s)
  | .arr xs => some (xs.any (fun x => jvalIsStr x s))
  | .str t => some (strContainsSub t s)
  | _ => none

/-- Python `for x in v`: lists yield elements, dicts their keys, strings
their characters; other values raise `TypeError`. -/
def pyIterElems (v : JValue) : Option (List JValue) :=
  match v with
  | .arr xs => some xs
  | .obj kvs => some (kvs.map (fun kv => JValue.str kv.1))
  | .str s => some (s.data.map (fun c => JValue.str (String.mk [c])))
  | _ => none

/-- Python `a + b` as used for the parameter-list merge: sequence
concatenation for two lists or two strings, addition for two ints; a
mismatch raises `TypeError`. -/
def pyAdd (a b : JValue) : Option JValue :=
  match a, b with
  | .arr x, .arr y => some (.arr (x ++ y))
  | .str x, .str y => some (.str (x ++ y))
  | .int x, .int y => some (.int (x + y))
  | _, _ => none

/-- Python `s.upper()` restricted to ASCII (HTTP method names). -/
def asciiUpperChar (c : Char) : Char :=
  if 'a' ≤ c ∧ c ≤ 'z' then Char.ofNat (c.toNat - 32) else c

/-- Python `s.upper()` restricted to ASCII (HTTP method names). -/
def asciiUpper (s : String) : String :=
  String.mk (s.data.map asciiUpperChar)

/-- All-decimal-digits parse for `pyInt`. -/
def digitsToNat (ds : List Char) : Option Nat :=
  if ds.isEmpty then none
  else ds.foldlM
    (fun acc c =>
      if '0' ≤ c ∧ c ≤ '9' then some (acc * 10 + (c.toNat - 48)) else none) 0

/-- Python `int(s)` on a decimal string with optional sign and surrounding
spaces; `none` models a `ValueError` (caught by the source, which then uses
status code 0). -/
def pyInt (s : String) : Option Int :=
  let t := ((s.data.dropWhile (fun c => c == ' ')).reverse.dropWhile
    (fun c => c == ' ')).reverse
  match t with
  | '-' :: ds => (digitsToNat ds).map (fun n => -(n : Int))
  | '+' :: ds => (digitsToNat ds).map (fun n => (n : Int))
  | ds => (digitsToNat ds).map (fun n => (n : Int))

/-- Python `str(v)` for the f-string in the Swagger-2.x error message
(scalar renderings; containers get a crude bracket form, which no theorem
relies on). -/
def pyStr : JValue → String
  | .null => "None"
  | .bool b => if b then "True" else "False"
  | .int n => intToDecimal n
  | .float m => intToDecimal m ++ ".0"
  | .str s => s
  | .arr _ => "[...]"
  | .obj _ => "{...}"

/-- Lexicographic strict comparison of two character lists by code point,
matching Python string `<`. -/
def charListLt : List Char → List Char → Bool
  | [], [] => false
  | [], _ :: _ => true
  | _ :: _, [] => false
  | a :: as, b :: bs =>
    if a < b then true else if b < a then false else charListLt as bs

/-- Python string `<` (lexicographic by code point). -/
def strLtb (a b : String) : Bool :=
  charListLt a.data b.data

/-- Python string `<=`; the order `sorted` sorts by. -/
def strLeb (a b : String) : Bool :=
  !(strLtb b a)

/-- The sort order used to model Python `sorted` on strings. -/
def strLe (a b : String) : Prop :=
  strLeb a b = true

instance : DecidableRel strLe := fun a b => instDecidableEqBool (strLeb a b) true

/-- Python `sorted` on a list of strings. -/
def pySortStrings (l : List String) : List String :=
  List.insertionSort strLe l

/-- Walk of `_resolve_ref`: follow the pointer segments from the document
root; a missing segment or non-mapping intermediate yields an empty dict. -/
def resolveRefAux : List String → JValue → JValue
  | [], result => result
  | part :: rest, result =>
    match result with
    | .obj kvs =>
      match dictLookup kvs part with
      | some v => resolveRefAux rest v
      | none => .obj []
    | _ => .obj []

/-- `_resolve_ref`: resolve a `#/`-rooted pointer, returning an empty dict
for external refs, missing segments or a non-mapping result. -/
def resolveRef (ref : String) (spec : JValue) : List (String × JValue) :=
  if ¬ pyStartsWith ref "#/" then []
  else
    match resolveRefAux (pySplitOnChar (String.mk (ref.data.drop 2)) '/') spec with
    | .obj kvs => kvs
    | _ => []

/-- `_resolve_schema`: a falsy schema becomes an empty dict; a schema with a
top-level `$ref` becomes the referenced fragment with the sibling keys
written over it; anything else is returned unchanged. -/
def resolveSchema (schema : JValue) (spec : JValue) : Option JValue := do
  if ¬ schema.truthy then pure (.obj [])
  else do
    let hasRef ← pyInP schema "$ref"
    if hasRef then do
      let refv ← pyIndexP schema "$ref"
      match refv with
      | .str rs =>
        let resolved := resolveRef rs spec
        match schema with
        | .obj fields =>
          pure (.obj (fields.foldl
            (fun acc kv => if kv.1 = "$ref" then acc else dictInsert acc kv.1 kv.2)
            resolved))
        | _ => none
      | _ => none
    else pure schema

/-- The result of `_parse_parameter`: the `Parameter` dataclass as actually
populated from a raw document (no field is type-checked by the source). -/
structure RawParameter where
  name : JValue
  location : JValue
  required : JValue
  schema_type : JValue
  description : JValue
  exampleVal : JValue

/-- The result of `_parse_request_body` on a raw document. -/
structure RawRequestBody where
  content_type : String
  schema : JValue
  required : JValue
  exampleVal : JValue

/-- The result of one entry of `_parse_responses` on a raw document. -/
structure RawResponse where
  status_code : Int
  description : JValue
  schema : Option JValue
  exampleVal : JValue

/-- The result of `_parse_endpoint` on a raw document. -/
structure RawEndpoint where
  path : String
  method : String
  operation_id : JValue
  summary : JValue
  description : JValue
  tags : JValue
  parameters : List RawParameter
  request_body : Option RawRequestBody
  responses : List RawResponse

/-- The result of `normalize_spec` on a raw document. -/
structure RawSpec where
  title : JValue
  version : JValue
  description : JValue
  base_url : Option JValue
  endpoints : List RawEndpoint
  schemas : JValue

/-- `_parse_parameter`. -/
def parseParameter (paramData : JValue) (spec : JValue) : Option RawParameter := do
  let hasRef ← pyInP paramData "$ref"
  let pd ←
    if hasRef then do
      let refv ← pyIndexP paramData "$ref"
      match refv with
      | .str rs => pure (JValue.obj (resolveRef rs spec))
      | _ => none
    else pure paramData
  let schema0 ← pyGetP pd "schema" (.obj [])
  let hasRef2 ← pyInP schema0 "$ref"
  let schema ←
    if hasRef2 then do
      let refv ← pyIndexP schema0 "$ref"
      match refv with
      | .str rs => pure (JValue.obj (resolveRef rs spec))
      | _ => none
    else pure schema0
  let namev ← pyGetP pd "name" (.str "")
  let locv ← pyGetP pd "in" (.str "query")
  let reqv ← pyGetP pd "required" (.bool false)
  let schemaTypev ← pyGetP schema "type" (.str "string")
  let descv ← pyGetP pd "description" .null
  let ex1 ← pyGetP pd "example" .null
  let exv ← if ex1.truthy then pure ex1 else pyGetP schema "example" .null
  pure {
    name := namev
    location := locv
    required := reqv
    schema_type := schemaTypev
    description := descv
    exampleVal := exv }

/-- Trailer of `_parse_request_body` once a media type has been selected. -/
def parseRequestBodyMedia (contentType : String) (mediaType : JValue)
    (bodyData : JValue) (spec : JValue) : Option (Option RawRequestBody) := do
  let schema0 ← pyGetP mediaType "schema" (.obj [])
  let schema ← resolveSchema schema0 spec
  let reqv ← pyGetP bodyData "required" (.bool false)
  let exv ← pyGetP mediaType "example" .null
  pure (some {
    content_type := contentType
    schema := schema
    required := reqv
    exampleVal := exv })

/-- `_parse_request_body`: falsy body data means no request body; prefer the
`application/json` media type, else the first declared one; no media type
means no request body. -/
def parseRequestBody (bodyData : JValue) (spec : JValue) :
    Option (Option RawRequestBody) := do
  if ¬ bodyData.truthy then pure none
  else do
    let hasRef ← pyInP bodyData "$ref"
    let bd ←
      if hasRef then do
        let refv ← pyIndexP bodyData "$ref"
        match refv with
        | .str rs => pure (JValue.obj (resolveRef rs spec))
        | _ => none
      else pure bodyData
    let content ← pyGetP bd "content" (.obj [])
    let hasJson ← pyInP content "application/json"
    if hasJson then do
      let mediaType ← pyIndexP content "application/json"
      parseRequestBodyMedia "application/json" mediaType bd spec
    else if content.truthy then
      match content with
      | .obj ((k, v) :: _) => parseRequestBodyMedia k v bd spec
      | _ => none
    else pure none

/-- One iteration of the `_parse_responses` loop, for response key
`statusKey` mapped to `responseData`. -/
def parseOneResponse (statusKey : String) (responseData : JValue)
    (spec : JValue) : Option RawResponse := do
  let hasRef ← pyInP responseData "$ref"
  let rd ←
    if hasRef then do
      let refv ← pyIndexP responseData "$ref"
      match refv with
      | .str rs => pure (JValue.obj (resolveRef rs spec))
      | _ => none
    else pure responseData
  let content ← pyGetP rd "content" (.obj [])
  let hasJson ← pyInP content "application/json"
  let se ←
    if hasJson then do
      let mediaType ← pyIndexP content "application/json"
      let s0 ← pyGetP mediaType "schema" (.obj [])
      let s ← resolveSchema s0 spec
      let exv ← pyGetP mediaType "example" .null
      pure (some s, exv)
    else pure (none, JValue.null)
  let code := (pyInt statusKey).getD 0
  let descv ← pyGetP rd "description" (.str "")
  pure {
    status_code := code
    description := descv
    schema := se.1
    exampleVal := se.2 }

/-- `_parse_responses`: iterate the response mapping in declaration order
(`.items()` requires a mapping). -/
def parseResponses (responsesData : JValue) (spec : JValue) :
    Option (List RawResponse) := do
  match responsesData with
  | .obj items =>
    items.foldlM
      (fun acc kv => do
        let r ← parseOneResponse kv.1 kv.2 spec
        pure (acc ++ [r])) []
  | _ => none

/-- `_parse_endpoint`. -/
def parseEndpoint (path : String) (method : String) (operation : JValue)
    (spec : JValue) : Option RawEndpoint := do
  let paramsVal ← pyGetP operation "parameters" (.arr [])
  let paramElems ← pyIterElems paramsVal
  let params ← paramElems.foldlM
    (fun acc p => do
      let rp ← parseParameter p spec
      pure (acc ++ [rp])) []
  let opId ← pyGetP operation "operationId" .null
  let summaryv ← pyGetP operation "summary" .null
  let descv ← pyGetP operation "description" .null
  let tagsv ← pyGetP operation "tags" (.arr [])
  let bodyv ← pyGetP operation "requestBody" .null
  let rb ← parseRequestBody bodyv spec
  let respv ← pyGetP operation "responses" (.obj [])
  let resps ← parseResponses respv spec
  pure {
    path := path
    method := asciiUpper method
    operation_id := opId
    summary := summaryv
    description := descv
    tags := tagsv
    parameters := params
    request_body := rb
    responses := resps }

/-- The fixed method list of `normalize_spec`. -/
def httpMethods : List String :=
  ["get", "post", "put", "patch", "delete", "head", "options"]

/-- Operation-object construction of the `normalize_spec` inner loop: when
path-level parameters are truthy, write the concatenation of path-level and
operation-level parameters over the operation's `parameters` key. -/
def methodOperation (pathParams : JValue) (opFields : List (String × JValue)) :
    Option JValue :=
  if pathParams.truthy then do
    let opParams := (dictLookup opFields "parameters").getD (.arr [])
    let merged ← pyAdd pathParams opParams
    pure (JValue.obj (dictInsert opFields "parameters" merged))
  else pure (JValue.obj opFields)

/-- One method of the `normalize_spec` inner loop: if the method key is
present and maps to a mapping, build the merged operation and parse the
endpoint. -/
def methodStep (path : String) (pathItem : List (String × JValue)) (raw : JValue)
    (pathParams : JValue) (acc : List RawEndpoint) (method : String) :
    Option (List RawEndpoint) :=
  if dictHasKey pathItem method then
    match (dictLookup pathItem method).getD .null with
    | .obj opFields => do
      let operation ← methodOperation pathParams opFields
      let ep ← parseEndpoint path method operation raw
      pure (acc ++ [ep])
    | _ => pure acc
  else pure acc

/-- Inner loop of `normalize_spec` over one path item: iterate the sorted
method set with `methodStep`. -/
def normalizePathItem (path : String) (pathItem : List (String × JValue))
    (raw : JValue) : Option (List RawEndpoint) :=
  (pySortStrings httpMethods).foldlM
    (methodStep path pathItem raw ((dictLookup pathItem "parameters").getD (.arr [])))
    []

/-- One path of the `normalize_spec` outer loop: skip path items that are
not mappings, else collect the path item's endpoints. -/
def pathStep (pathFields : List (String × JValue)) (rawSpec : JValue)
    (acc : List RawEndpoint) (path : String) : Option (List RawEndpoint) :=
  match (dictLookup pathFields path).getD .null with
  | .obj pathItem => do
    let eps ← normalizePathItem path pathItem rawSpec
    pure (acc ++ eps)
  | _ => pure acc

/-- Everything `normalize_spec` does after its version and `info` checks
have passed: base URL, component schemas, and the sorted endpoint walk
(only dynamic errors can occur here). -/
def normalizeBaseUrl (raw : List (String × JValue)) : Option (Option JValue) :=
  if ((dictLookup raw "servers").getD (.arr [])).truthy then
    match (dictLookup raw "servers").getD (.arr []) with
    | .arr (s0 :: _) =>
      pyGetP s0 "url" .null >>= fun u =>
      if u.truthy then some (some u) else some none
    | _ => some none
  else some none

def normalizeSpecBody (raw : List (String × JValue)) (rawSpec : JValue)
    (info title version : JValue) : Option RawSpec :=
  normalizeBaseUrl raw >>= fun baseUrl =>
  pyGetP ((dictLookup raw "components").getD (.obj [])) "schemas" (.obj []) >>= fun schemas =>
  (match (dictLookup raw "paths").getD (.obj []) with
   | .obj kvs => some kvs
   | _ => none) >>= fun pathFields =>
  (pySortStrings (pathFields.map Prod.fst)).foldlM
      (pathStep pathFields rawSpec) [] >>= fun endpoints =>
  pyGetP info "description" .null >>= fun descv =>
  some {
    title := title
    version := version
    description := descv
    base_url := baseUrl
    endpoints := endpoints
    schemas := schemas }

/-- The tail of `normalize_spec` once the version and `info` checks have
all passed: run the body walk, mapping its dynamic failures. -/
def normalizeWithTitleVersion (raw : List (String × JValue))
    (title version : JValue) : Except PyErr RawSpec :=
  match normalizeSpecBody raw (JValue.obj raw)
      ((dictLookup raw "info").getD (.obj [])) title version with
  | some s => Except.ok s
  | none => Except.error PyErr.dynamic

/-- The tail of `normalize_spec` once the title check has passed: check
`info.version` and continue. -/
def normalizeWithTitle (raw : List (String × JValue)) (title : JValue) :
    Except PyErr RawSpec :=
  match pyGetP ((dictLookup raw "info").getD (.obj [])) "version" .null with
  | none => Except.error PyErr.dynamic
  | some version =>
    if ¬ version.truthy then
      Except.error (PyErr.parse "Missing required field: info.version")
    else normalizeWithTitleVersion raw title version

/-- The tail of `normalize_spec` once the OpenAPI version check has
passed: check `info.title` and continue. -/
def normalizeWithVersionOk (raw : List (String × JValue)) :
    Except PyErr RawSpec :=
  match pyGetP ((dictLookup raw "info").getD (.obj [])) "title" .null with
  | none => Except.error PyErr.dynamic
  | some title =>
    if ¬ title.truthy then
      Except.error (PyErr.parse "Missing required field: info.title")
    else normalizeWithTitle raw title

/-- The version check of `normalize_spec` on the string value of the
`openapi` field (defaulted to the empty string): reject non-3.x versions
with the three distinct messages, naming Swagger 2.x when a truthy
`swagger` field is present. -/
def normalizeVersionCheck (raw : List (String × JValue)) (s : String) :
    Except PyErr RawSpec :=
  if ¬ pyStartsWith s "3." then
    if ((dictLookup raw "swagger").getD (.str "")).truthy then
      Except.error (PyErr.parse
        ("Swagger/OpenAPI 2.x not supported, found version " ++
          pyStr ((dictLookup raw "swagger").getD (.str ""))))
    else if s = "" then
      Except.error (PyErr.parse "Missing 'openapi' version field")
    else
      Except.error (PyErr.parse ("Unsupported OpenAPI version: " ++ s))
  else normalizeWithVersionOk raw

/-- `normalize_spec`: the version and `info` checks raise the spec error
with their distinct messages; everything after them can only raise dynamic
errors, mapped to `PyErr.dynamic`. -/
def normalizeSpec (rawSpec : JValue) : Except PyErr RawSpec :=
  match rawSpec with
  | .obj raw =>
    match (dictLookup raw "openapi").getD (.str "") with
    | .str s => normalizeVersionCheck raw s
    | _ => Except.error PyErr.dynamic
  | _ => Except.error (PyErr.parse "Spec must be an object")

/-! ## General lemmas -/

/-- Bind in `Except` returns `ok` exactly when both stages do. -/
theorem except_bind_ok {e a b : Type} (x : Except e a) (f : a → Except e b) (v : b) :
    x >>= f = Except.ok v ↔ ∃ w, x = Except.ok w ∧ f w = Except.ok v := by
  cases x <;> simp [Bind.bind, Except.bind]

/-- Map in `Except` returns `ok` exactly when the argument does. -/
theorem except_map_ok {e a b : Type} (x : Except e a) (f : a → b) (v : b) :
    x.map f = Except.ok v ↔ ∃ w, x = Except.ok w ∧ f w = v := by
  cases x <;> simp [Except.map]

/-- Lookup after a Python dict assignment. -/
theorem dictLookup_dictInsert (d : List (String × JValue)) (k : String) (v : JValue)
    (q : String) :
    dictLookup (dictInsert d k v) q = if k = q then some v else dictLookup d q := by
  induction d with
  | nil => simp [dictInsert, dictLookup]
  | cons kv rest ih =>
    obtain ⟨a, b⟩ := kv
    by_cases hk : a = k
    · subst hk
      by_cases hq : a = q <;> simp [dictInsert, dictLookup, hq]
    · by_cases hq : a = q
      · subst hq
        have hkq : ¬ k = a := fun h => hk h.symm
        simp [dictInsert, dictLookup, hk, hkq]
      · simp [dictInsert, dictLookup, hk, hq, ih]

/-- Membership after a Python dict assignment. -/
theorem mem_dictInsert (d : List (String × JValue)) (k : String) (v : JValue)
    (a : String) (b : JValue) (h : (a, b) ∈ dictInsert d k v) :
    (a = k ∧ b = v) ∨ (a, b) ∈ d := by
  induction d with
  | nil =>
    simp [dictInsert] at h
    exact Or.inl ⟨h.1, h.2⟩
  | cons kv rest ih =>
    by_cases hk : kv.1 = k
    · simp [dictInsert, hk] at h
      rcases h with ⟨ha, hb⟩ | h
      · exact Or.inl ⟨ha, hb⟩
      · exact Or.inr (List.mem_cons_of_mem _ h)
    · simp [dictInsert, hk] at h
      rcases h with h | h
      · exact Or.inr (by simp [h])
      · rcases ih h with h' | h'
        · exact Or.inl h'
        · exact Or.inr (List.mem_cons_of_mem _ h')

/-- A Python dict assignment never produces an empty dict. -/
theorem dictInsert_ne_nil (d : List (String × JValue)) (k : String) (v : JValue) :
    dictInsert d k v ≠ [] := by
  cases d with
  | nil => simp [dictInsert]
  | cons kv rest =>
    by_cases hk : kv.1 = k <;> simp [dictInsert, hk]

/-- Existence form of the path-parameter filter being nonempty. -/
theorem filter_path_ne_nil_iff (ps : List Parameter) :
    ((ps.filter (fun p => p.location = "path")).isEmpty = false) ↔
      ∃ p ∈ ps, p.location = "path" := by
  rw [List.isEmpty_eq_false_iff_exists_mem]
  constructor
  · rintro ⟨p, hp⟩
    rw [List.mem_filter] at hp
    exact ⟨p, hp.1, by simpa using hp.2⟩
  · rintro ⟨p, hp, hloc⟩
    exact ⟨p, List.mem_filter.mpr ⟨hp, by simpa using hloc⟩⟩

/-- Existence form of a declared status among the responses. -/
theorem any_status_iff (rs : List Response) (c : Int) :
    (rs.any (fun r => r.status_code == c) = true) ↔ ∃ r ∈ rs, r.status_code = c := by
  rw [List.any_eq_true]
  constructor
  · rintro ⟨r, hr, hc⟩
    exact ⟨r, hr, by simpa using hc⟩
  · rintro ⟨r, hr, hc⟩
    exact ⟨r, hr, by simpa using hc⟩

/-- The happy-path expected status is always one of 200, 201, 204. -/
theorem happyStatus_cases (rs : List Response) :
    happyStatus rs = 200 ∨ happyStatus rs = 201 ∨ happyStatus rs = 204 := by
  induction rs with
  | nil => exact Or.inl rfl
  | cons r rest ih =>
    unfold happyStatus
    split
    · next h => exact h
    · exact ih

/-- Field characterization of a produced happy-path test case. -/
theorem generateHappyPath_fields (fuel : Nat) (ep : Endpoint) (spec : NormalizedSpec)
    (tc : GeneratedTestCase) (h : generateHappyPath fuel ep spec = Except.ok tc) :
    tc.name = "test_" ++ effectiveOperationId ep ++ "_success" ∧
    tc.expected_status = happyStatus ep.responses ∧
    tc.method = ep.method ∧ tc.path = ep.path ∧
    tc.path_params = (if (happyPathParams ep.parameters).isEmpty then none
      else some (happyPathParams ep.parameters)) ∧
    tc.assertions =
      ["assert response.status_code == " ++ intToDecimal (happyStatus ep.responses)] ++
        (if happyStatus ep.responses ≠ 204 then ["assert response.json() is not None"]
         else []) := by
  unfold generateHappyPath at h
  rw [except_map_ok] at h
  obtain ⟨rb, hrb, hf⟩ := h
  subst hf
  exact ⟨rfl, rfl, rfl, rfl, rfl, rfl⟩

/-- The produced request body of a happy-path test case. -/
theorem generateHappyPath_request_body (fuel : Nat) (ep : Endpoint)
    (spec : NormalizedSpec) (tc : GeneratedTestCase) (rb : RequestBody)
    (h : generateHappyPath fuel ep spec = Except.ok tc)
    (hrb : ep.request_body = some rb) :
    ∃ b, generateExampleBody fuel rb.schema spec.schemas = Except.ok b ∧
      tc.request_body = some b := by
  unfold generateHappyPath at h
  rw [except_map_ok] at h
  obtain ⟨body, hbody, hf⟩ := h
  subst hf
  unfold happyRequestBody at hbody
  rw [hrb] at hbody
  rw [except_map_ok] at hbody
  obtain ⟨b, hb, hsome⟩ := hbody
  exact ⟨b, hb, by rw [← hsome]⟩

/-- Gating of the not-found test case. -/
theorem generateNotFoundTest_isSome_iff (ep : Endpoint) :
    (generateNotFoundTest ep).isSome = true ↔
      ((ep.method = "GET" ∨ ep.method = "PUT" ∨ ep.method = "DELETE") ∧
        (∃ p ∈ ep.parameters, p.location = "path") ∧
        (∃ r ∈ ep.responses, r.status_code = 404)) := by
  unfold generateNotFoundTest
  by_cases h1 : ep.method = "GET" ∨ ep.method = "PUT" ∨ ep.method = "DELETE"
  · by_cases h2 : (ep.parameters.filter (fun p => p.location = "path")).isEmpty
    · have h2' : ¬ ∃ p ∈ ep.parameters, p.location = "path" := by
        rw [← filter_path_ne_nil_iff]
        simp [h2]
      simp [h1, h2, h2']
    · by_cases h3 : ep.responses.any (fun r => r.status_code == 404)
      · simp [h1, h2, h3, (filter_path_ne_nil_iff ep.parameters).mp (by simp [h2]),
          (any_status_iff ep.responses 404).mp h3]
      · have h3' : ¬ ∃ r ∈ ep.responses, r.status_code = 404 := by
          rw [← any_status_iff]
          simp [h3]
        simp [h1, h2, h3, h3']
  · simp [h1]

/-- Field characterization of a produced not-found test case. -/
theorem generateNotFoundTest_fields (ep : Endpoint) (tc : GeneratedTestCase)
    (h : generateNotFoundTest ep = some tc) :
    tc.name = "test_" ++ effectiveOperationId ep ++ "_not_found" ∧
    tc.expected_status = 404 ∧
    tc.path_params = some ((ep.parameters.filter (fun p => p.location = "path")).foldl
      (fun d p => dictInsert d p.name (.str "nonexistent-id-12345")) []) ∧
    tc.assertions = ["assert response.status_code == 404"] := by
  unfold generateNotFoundTest at h
  by_cases h1 : ep.method = "GET" ∨ ep.method = "PUT" ∨ ep.method = "DELETE"
  · rw [if_pos h1] at h
    by_cases h2 : (ep.parameters.filter (fun p => p.location = "path")).isEmpty
    · rw [if_pos h2] at h
      cases h
    · rw [if_neg h2] at h
      by_cases h3 : ep.responses.any (fun r => r.status_code == 404)
      · rw [if_pos h3] at h
        injection h with h4
        subst h4
        exact ⟨rfl, rfl, rfl, rfl⟩
      · rw [if_neg h3] at h
        cases h
  · rw [if_neg h1] at h
    cases h

/-- Field characterization of a produced validation-error test case. -/
theorem generateValidationErrorTest_fields (ep : Endpoint) (tc : GeneratedTestCase)
    (h : generateValidationErrorTest ep = some tc) :
    tc.name = "test_" ++ effectiveOperationId ep ++ "_validation_error" ∧
    tc.expected_status = 422 ∧
    tc.request_body = some (.obj []) ∧
    tc.assertions = ["assert response.status_code == 422"] := by
  unfold generateValidationErrorTest at h
  by_cases h1 : ep.method = "POST" ∨ ep.method = "PUT" ∨ ep.method = "PATCH"
  · rw [if_pos h1] at h
    by_cases h2 : ep.request_body.isSome ∧ ep.responses.any (fun r => r.status_code == 422)
    · rw [if_pos h2] at h
      injection h with h4
      subst h4
      exact ⟨rfl, rfl, rfl, rfl⟩
    · rw [if_neg h2] at h
      cases h
  · rw [if_neg h1] at h
    cases h

/-- Decomposition of a produced test plan into its three candidate cases. -/
theorem generateTestPlan_cases (fuel : Nat) (ep : Endpoint) (spec : NormalizedSpec)
    (plan : GeneratedTestPlan) (h : generateTestPlan fuel ep spec = Except.ok plan) :
    ∃ happy, generateHappyPath fuel ep spec = Except.ok happy ∧
      plan.test_cases = [happy] ++ (generateNotFoundTest ep).toList ++
        (generateValidationErrorTest ep).toList ∧
      plan.endpoint_path = ep.path ∧ plan.endpoint_method = ep.method := by
  unfold generateTestPlan at h
  rw [except_map_ok] at h
  obtain ⟨happy, hh, hf⟩ := h
  subst hf
  exact ⟨happy, hh, rfl, rfl, rfl⟩

/-! ## Concrete fixtures used by witnesses and counterexamples -/

/-- A minimal normalized spec with no component schemas. -/
def specT : NormalizedSpec := { title := "Test API", version := "1.0.0" }

/-- GET /health with a single 200 response. -/
def healthEndpoint : Endpoint :=
  { path := "/health"
    method := "GET"
    operation_id := some "health_check"
    responses := [{ status_code := 200 }] }

/-- The happy-path case generated for `healthEndpoint`. -/
def healthHappyCase : GeneratedTestCase :=
  { name := "test_health_check_success"
    description := "Test successful GET /health"
    method := "GET"
    path := "/health"
    expected_status := 200
    request_body := none
    path_params := none
    query_params := none
    assertions := ["assert response.status_code == 200",
      "assert response.json() is not None"] }

/-- The plan generated for `healthEndpoint`. -/
def healthPlan : GeneratedTestPlan :=
  { endpoint_path := "/health"
    endpoint_method := "GET"
    test_cases := [healthHappyCase] }

/-! ## C10 -/

/-- C10: whenever `generate_test_plan` returns a plan, the happy-path test
case was produced (not merely attempted) and is the first case of the plan,
and the plan has between one and three test cases, never zero. -/
theorem c10_plan_shape (fuel : Nat) (ep : Endpoint) (spec : NormalizedSpec)
    (plan : GeneratedTestPlan)
    (h : generateTestPlan fuel ep spec = Except.ok plan) :
    ∃ happy, generateHappyPath fuel ep spec = Except.ok happy ∧
      plan.test_cases.head? = some happy ∧
      1 ≤ plan.test_cases.length ∧ plan.test_cases.length ≤ 3 := by
  obtain ⟨happy, hh, hcases, -, -⟩ := generateTestPlan_cases fuel ep spec plan h
  refine ⟨happy, hh, ?_, ?_, ?_⟩ <;> rw [hcases] <;>
    cases generateNotFoundTest ep <;> cases generateValidationErrorTest ep <;> simp

/-- C10 (witness): the concrete health endpoint produces a one-case plan
headed by its happy-path case. -/
theorem c10_witness :
    ∃ happy, generateHappyPath 1 healthEndpoint specT = Except.ok happy ∧
      healthPlan.test_cases.head? = some happy ∧
      1 ≤ healthPlan.test_cases.length ∧ healthPlan.test_cases.length ≤ 3 :=
  c10_plan_shape 1 healthEndpoint specT healthPlan rfl

/-! ## C1 -/

/-- POST endpoint declaring 201 before 200. -/
def c1Endpoint : Endpoint :=
  { path := "/things"
    method := "POST"
    operation_id := some "make_thing"
    responses := [{ status_code := 201 }, { status_code := 200 }] }

/-- C1 (counterexample): with responses declared as [201, 200] the happy
path expects 201, not the claimed preference-ordered 200. -/
theorem c1_counterexample :
    (generateHappyPath 1 c1Endpoint specT).map (fun tc => tc.expected_status) =
      Except.ok 201 ∧ (201 : Int) ≠ 200 :=
  ⟨rfl, by decide⟩

/-- C1 (amended): the happy-path expected status is the status of the first
response in declaration order whose status is in {200, 201, 204}, and 200
when no response has such a status. -/
theorem c1_first_declared_status :
    (∀ fuel ep spec tc, generateHappyPath fuel ep spec = Except.ok tc →
      tc.expected_status = happyStatus ep.responses) ∧
    (∀ rs : List Response,
      (∀ r ∈ rs, r.status_code ≠ 200 ∧ r.status_code ≠ 201 ∧ r.status_code ≠ 204) →
      happyStatus rs = 200) ∧
    (∀ (l₁ : List Response) (r : Response) (l₂ : List Response),
      (∀ r' ∈ l₁, r'.status_code ≠ 200 ∧ r'.status_code ≠ 201 ∧ r'.status_code ≠ 204) →
      (r.status_code = 200 ∨ r.status_code = 201 ∨ r.status_code = 204) →
      happyStatus (l₁ ++ r :: l₂) = r.status_code) := by
  refine ⟨?_, ?_, ?_⟩
  · intro fuel ep spec tc h
    exact (generateHappyPath_fields fuel ep spec tc h).2.1
  · intro rs h
    induction rs with
    | nil => rfl
    | cons r rest ih =>
      have hr := h r (List.mem_cons_self r rest)
      unfold happyStatus
      rw [if_neg (by tauto)]
      exact ih (fun r' hr' => h r' (List.mem_cons_of_mem r hr'))
  · intro l₁ r l₂ hl hr
    induction l₁ with
    | nil =>
      show happyStatus (r :: l₂) = r.status_code
      unfold happyStatus
      rw [if_pos hr]
    | cons r' rest ih =>
      have hr' := hl r' (List.mem_cons_self r' rest)
      show happyStatus (r' :: (rest ++ r :: l₂)) = r.status_code
      unfold happyStatus
      rw [if_neg (by tauto)]
      exact ih (fun x hx => hl x (List.mem_cons_of_mem r' hx))

/-- DELETE endpoint declaring [404, 204]. -/
def c1wEndpoint : Endpoint :=
  { path := "/w"
    method := "DELETE"
    operation_id := some "w_del"
    responses := [{ status_code := 404 }, { status_code := 204 }] }

/-- The happy-path case for `c1wEndpoint`: 404 is skipped, 204 selected. -/
def c1wCase : GeneratedTestCase :=
  { name := "test_w_del_success"
    description := "Test successful DELETE /w"
    method := "DELETE"
    path := "/w"
    expected_status := 204
    request_body := none
    path_params := none
    query_params := none
    assertions := ["assert response.status_code == 204"] }

/-- C1 (witness): concrete first-declared-status selection at [404, 204]. -/
theorem c1_witness :
    (generateHappyPath 1 c1wEndpoint specT = Except.ok c1wCase ∧
      c1wCase.expected_status = happyStatus c1wEndpoint.responses) ∧
    happyStatus ([{ status_code := 404 }] ++ { status_code := 204 } :: []) = 204 := by
  constructor
  · exact ⟨rfl, c1_first_declared_status.1 1 c1wEndpoint specT c1wCase rfl⟩
  · refine c1_first_declared_status.2.2 [{ status_code := 404 }] { status_code := 204 } []
      ?_ (by right; right; rfl)
    intro r' hr'
    rw [List.mem_singleton] at hr'
    subst hr'
    exact ⟨by decide, by decide, by decide⟩

/-! ## C4 -/

/-- GET /items/{id} without an operationId. -/
def c4Endpoint : Endpoint :=
  { path := "/items/{id}"
    method := "GET"
    parameters := [{ name := "id", location := "path" }]
    responses := [{ status_code := 200 }, { status_code := 404 }] }

/-- C4 (counterexample): the derived name keeps the brace characters of the
path template; the claimed brace-free name is not produced. -/
theorem c4_counterexample :
    (generateHappyPath 1 c4Endpoint specT).map (fun tc => tc.name) =
      Except.ok "test_get_items_{id}_success" ∧
    "test_get_items_{id}_success" ≠ "test_get_items_id_success" ∧
    '{' ∈ "test_get_items_{id}_success".data :=
  ⟨rfl, by decide, by decide⟩

/-- C4 (amended): when `operationId` is absent, every generated test-case
name is `test_` + method lowercased + `_` + the path with slashes replaced
by underscores and leading/trailing underscores stripped (braces are not
removed), followed by one of the three fixed suffixes. -/
theorem c4_derived_name :
    ∀ ep : Endpoint, ep.operation_id = none →
      ∀ fuel spec plan, generateTestPlan fuel ep spec = Except.ok plan →
        ∀ tc ∈ plan.test_cases, ∃ suffix,
          (suffix = "_success" ∨ suffix = "_not_found" ∨ suffix = "_validation_error") ∧
          tc.name = "test_" ++ (asciiLower ep.method ++ "_" ++
            pyStripChar (pyReplaceChar ep.path '/' '_') '_') ++ suffix := by
  intro ep hop fuel spec plan h tc htc
  obtain ⟨happy, hh, hcases, -, -⟩ := generateTestPlan_cases fuel ep spec plan h
  have heff : effectiveOperationId ep =
      asciiLower ep.method ++ "_" ++ pyStripChar (pyReplaceChar ep.path '/' '_') '_' := by
    unfold effectiveOperationId derivedOperationId
    rw [hop]
  rw [hcases] at htc
  simp only [List.append_assoc, List.mem_append, List.mem_singleton,
    Option.mem_toList, Option.mem_def] at htc
  rcases htc with h1 | h2 | h3
  · exact ⟨"_success", Or.inl rfl,
      by rw [h1, (generateHappyPath_fields fuel ep spec happy hh).1, heff]⟩
  · exact ⟨"_not_found", Or.inr (Or.inl rfl),
      by rw [(generateNotFoundTest_fields ep tc h2).1, heff]⟩
  · exact ⟨"_validation_error", Or.inr (Or.inr rfl),
      by rw [(generateValidationErrorTest_fields ep tc h3).1, heff]⟩

/-- The happy-path case generated for `c4Endpoint`. -/
def c4HappyCase : GeneratedTestCase :=
  { name := "test_get_items_{id}_success"
    description := "Test successful GET /items/{id}"
    method := "GET"
    path := "/items/{id}"
    expected_status := 200
    request_body := none
    path_params := some [("id", .str "test-string")]
    query_params := none
    assertions := ["assert response.status_code == 200",
      "assert response.json() is not None"] }

/-- The not-found case generated for `c4Endpoint`. -/
def c4NotFoundCase : GeneratedTestCase :=
  { name := "test_get_items_{id}_not_found"
    description := "Test GET /items/{id} with non-existent resource"
    method := "GET"
    path := "/items/{id}"
    expected_status := 404
    request_body := none
    path_params := some [("id", .str "nonexistent-id-12345")]
    query_params := none
    assertions := ["assert response.status_code == 404"] }

/-- The plan generated for `c4Endpoint`. -/
def c4Plan : GeneratedTestPlan :=
  { endpoint_path := "/items/{id}"
    endpoint_method := "GET"
    test_cases := [c4HappyCase, c4NotFoundCase] }

/-- C4 (witness): the derived-name rule applied to the concrete endpoint. -/
theorem c4_witness :
    ∃ suffix,
      (suffix = "_success" ∨ suffix = "_not_found" ∨ suffix = "_validation_error") ∧
      c4HappyCase.name = "test_" ++ (asciiLower c4Endpoint.method ++ "_" ++
        pyStripChar (pyReplaceChar c4Endpoint.path '/' '_') '_') ++ suffix :=
  c4_derived_name c4Endpoint rfl 1 specT c4Plan rfl c4HappyCase
    (List.mem_cons_self _ _)

/-! ## C7 -/

/-- Lookup in the not-found path-parameter dict built by folding constant
inserts. -/
theorem constFold_lookup (ps : List Parameter) (d : List (String × JValue))
    (k : String) :
    dictLookup (ps.foldl
      (fun d p => dictInsert d p.name (.str "nonexistent-id-12345")) d) k =
    if ps.any (fun p => p.name == k) then some (.str "nonexistent-id-12345")
    else dictLookup d k := by
  induction ps generalizing d with
  | nil => simp
  | cons p rest ih =>
    simp only [List.foldl_cons, List.any_cons]
    rw [ih]
    by_cases hk : p.name = k
    · by_cases h2 : rest.any (fun p => p.name == k) <;>
        simp [hk, h2, dictLookup_dictInsert]
    · by_cases h2 : rest.any (fun p => p.name == k) <;>
        simp [hk, h2, dictLookup_dictInsert]

/-- Every entry of the not-found path-parameter dict carries the constant
placeholder and is named after one of the folded parameters. -/
theorem constFold_mem (ps : List Parameter) (d : List (String × JValue))
    (a : String) (b : JValue)
    (h : (a, b) ∈ ps.foldl
      (fun d p => dictInsert d p.name (.str "nonexistent-id-12345")) d) :
    (a, b) ∈ d ∨ (b = .str "nonexistent-id-12345" ∧ ∃ p ∈ ps, p.name = a) := by
  induction ps generalizing d with
  | nil => exact Or.inl h
  | cons p rest ih =>
    simp only [List.foldl_cons] at h
    rcases ih (dictInsert d p.name (.str "nonexistent-id-12345")) h with h' | h'
    · rcases mem_dictInsert d p.name (.str "nonexistent-id-12345") a b h' with h'' | h''
      · exact Or.inr ⟨h''.2, p, List.mem_cons_self p rest, h''.1.symm⟩
      · exact Or.inl h''
    · exact Or.inr ⟨h'.1, h'.2.choose, List.mem_cons_of_mem p h'.2.choose_spec.1,
        h'.2.choose_spec.2⟩

/-- C7: a not-found test case is emitted exactly when the method is GET, PUT
or DELETE, a path parameter exists, and a 404 response is declared; there is
at most one such case per plan, it expects 404 with the single 404
assertion, and its path parameters map every path parameter (and nothing
else) to the literal placeholder nonexistent-id-12345 regardless of type. -/
theorem c7_not_found_gating (fuel : Nat) (ep : Endpoint) (spec : NormalizedSpec)
    (plan : GeneratedTestPlan)
    (h : generateTestPlan fuel ep spec = Except.ok plan) :
    (((ep.method = "GET" ∨ ep.method = "PUT" ∨ ep.method = "DELETE") ∧
        (∃ p ∈ ep.parameters, p.location = "path") ∧
        (∃ r ∈ ep.responses, r.status_code = 404)) ↔
      ∃ tc ∈ plan.test_cases, tc.expected_status = 404) ∧
    (plan.test_cases.filter (fun tc => tc.expected_status == 404)).length ≤ 1 ∧
    (∀ tc ∈ plan.test_cases, tc.expected_status = 404 →
      tc.assertions = ["assert response.status_code == 404"] ∧
      ∃ pp, tc.path_params = some pp ∧
        (∀ p ∈ ep.parameters, p.location = "path" →
          dictLookup pp p.name = some (.str "nonexistent-id-12345")) ∧
        (∀ a b, (a, b) ∈ pp → b = .str "nonexistent-id-12345" ∧
          ∃ p ∈ ep.parameters, p.location = "path" ∧ p.name = a)) := by
  obtain ⟨happy, hh, hcases, -, -⟩ := generateTestPlan_cases fuel ep spec plan h
  have h200 : happy.expected_status ≠ 404 := by
    have hst := (generateHappyPath_fields fuel ep spec happy hh).2.1
    rcases happyStatus_cases ep.responses with hs | hs | hs <;> rw [hst, hs] <;> decide
  have hve404 : ∀ tc, generateValidationErrorTest ep = some tc →
      tc.expected_status ≠ 404 := by
    intro tc htc
    rw [(generateValidationErrorTest_fields ep tc htc).2.1]
    decide
  refine ⟨?_, ?_, ?_⟩
  · constructor
    · intro hconds
      have hsome : (generateNotFoundTest ep).isSome = true :=
        (generateNotFoundTest_isSome_iff ep).mpr hconds
      obtain ⟨nf, hnf⟩ := Option.isSome_iff_exists.mp hsome
      refine ⟨nf, ?_, (generateNotFoundTest_fields ep nf hnf).2.1⟩
      rw [hcases, hnf]
      simp
    · rintro ⟨tc, htc, h404⟩
      rw [hcases] at htc
      simp only [List.append_assoc, List.mem_append, List.mem_singleton,
        Option.mem_toList, Option.mem_def] at htc
      rcases htc with h1 | h2 | h3
      · exact absurd (h1 ▸ h404) h200
      · exact (generateNotFoundTest_isSome_iff ep).mp (by rw [h2]; rfl)
      · exact absurd h404 (hve404 tc h3)
  · rw [hcases]
    have hf1 : (happy.expected_status == 404) = false := by
      simpa using h200
    cases hnf : generateNotFoundTest ep with
    | none =>
      cases hve : generateValidationErrorTest ep with
      | none => simp [List.filter, hf1]
      | some ve =>
        have : (ve.expected_status == 404) = false := by
          simpa using hve404 ve hve
        simp [List.filter, hf1, this]
    | some nf =>
      cases hve : generateValidationErrorTest ep with
      | none =>
        simp [List.filter, hf1]
        cases nf.expected_status == 404 <;> simp
      | some ve =>
        have : (ve.expected_status == 404) = false := by
          simpa using hve404 ve hve
        simp [List.filter, hf1, this]
        cases nf.expected_status == 404 <;> simp
  · intro tc htc h404
    rw [hcases] at htc
    simp only [List.append_assoc, List.mem_append, List.mem_singleton,
      Option.mem_toList, Option.mem_def] at htc
    rcases htc with h1 | h2 | h3
    · exact absurd (h1 ▸ h404) h200
    · obtain ⟨-, -, hpp, hassert⟩ := generateNotFoundTest_fields ep tc h2
      refine ⟨hassert, _, hpp, ?_, ?_⟩
      · intro p hp hloc
        rw [constFold_lookup]
        rw [if_pos ?_]
        rw [List.any_eq_true]
        refine ⟨p, List.mem_filter.mpr ⟨hp, by simpa using hloc⟩, by simp⟩
      · intro a b hab
        rcases constFold_mem _ [] a b hab with h' | h'
        · cases h'
        · obtain ⟨hb, p, hpmem, hpname⟩ := h'
          rw [List.mem_filter] at hpmem
          exact ⟨hb, p, hpmem.1, by simpa using hpmem.2, hpname⟩
    · exact absurd h404 (hve404 tc h3)

/-- C7 (witness): the concrete GET /items/{id} endpoint with a declared 404
emits a 404-expecting case. -/
theorem c7_witness : ∃ tc ∈ c4Plan.test_cases, tc.expected_status = 404 := by
  refine ((c7_not_found_gating 1 c4Endpoint specT c4Plan rfl).1).mp
    ⟨Or.inl rfl, ⟨{ name := "id", location := "path" }, ?_, rfl⟩,
      ⟨{ status_code := 404 }, ?_, rfl⟩⟩
  · exact List.mem_cons_self _ _
  · exact List.mem_cons_of_mem _ (List.mem_cons_self _ _)

/-! ## C8 -/

/-- Folding parameters that never assign key `k` leaves its lookup alone. -/
theorem happyFold_noTouch (ps : List Parameter) (acc : List (String × JValue))
    (k : String) (hn : ∀ q ∈ ps, q.location = "path" → q.name ≠ k) :
    dictLookup (ps.foldl
      (fun acc p =>
        if p.location = "path" then dictInsert acc p.name (happyParamValue p)
        else acc) acc) k = dictLookup acc k := by
  induction ps generalizing acc with
  | nil => rfl
  | cons q rest ih =>
    simp only [List.foldl_cons]
    rw [ih _ (fun r hr => hn r (List.mem_cons_of_mem q hr))]
    by_cases hq : q.location = "path"
    · rw [if_pos hq, dictLookup_dictInsert,
        if_neg (hn q (List.mem_cons_self q rest) hq)]
    · rw [if_neg hq]

/-- With distinct path-parameter names, every path parameter's assigned
value survives the whole fold. -/
theorem happyFold_lookup (ps : List Parameter) (acc : List (String × JValue))
    (hnd : ((ps.filter (fun p => p.location = "path")).map (fun p => p.name)).Nodup)
    (p : Parameter) (hp : p ∈ ps) (hloc : p.location = "path") :
    dictLookup (ps.foldl
      (fun acc p =>
        if p.location = "path" then dictInsert acc p.name (happyParamValue p)
        else acc) acc) p.name = some (happyParamValue p) := by
  induction ps generalizing acc with
  | nil => cases hp
  | cons q rest ih =>
    simp only [List.foldl_cons]
    rcases List.mem_cons.mp hp with rfl | hp'
    · have hfilter : (p :: rest).filter (fun x => x.location = "path") =
          p :: rest.filter (fun x => x.location = "path") := by
        simp [List.filter_cons, hloc]
      rw [hfilter] at hnd
      simp only [List.map_cons, List.nodup_cons] at hnd
      have hn : ∀ r ∈ rest, r.location = "path" → r.name ≠ p.name := by
        intro r hr hrl hcontra
        exact hnd.1 (by
          rw [← hcontra]
          exact List.mem_map_of_mem _ (List.mem_filter.mpr ⟨hr, by simpa using hrl⟩))
      rw [happyFold_noTouch rest _ p.name hn, if_pos hloc,
        dictLookup_dictInsert, if_pos rfl]
    · have hnd' : ((rest.filter (fun x => x.location = "path")).map
          (fun x => x.name)).Nodup := by
        by_cases hq : q.location = "path"
        · have : (q :: rest).filter (fun x => x.location = "path") =
              q :: rest.filter (fun x => x.location = "path") := by
            simp [List.filter_cons, hq]
          rw [this] at hnd
          exact (List.nodup_cons.mp (by simpa using hnd)).2
        · have : (q :: rest).filter (fun x => x.location = "path") =
              rest.filter (fun x => x.location = "path") := by
            simp [List.filter_cons, hq]
          rwa [this] at hnd
      exact ih _ hnd' hp'

/-- The path-parameter fold is nonempty as soon as one path parameter
exists (or the accumulator is already nonempty). -/
theorem happyFold_ne_nil (ps : List Parameter) (acc : List (String × JValue))
    (h : (∃ p ∈ ps, p.location = "path") ∨ acc ≠ []) :
    ps.foldl
      (fun acc p =>
        if p.location = "path" then dictInsert acc p.name (happyParamValue p)
        else acc) acc ≠ [] := by
  induction ps generalizing acc with
  | nil =>
    rcases h with ⟨p, hp, -⟩ | h
    · cases hp
    · exact h
  | cons q rest ih =>
    simp only [List.foldl_cons]
    by_cases hq : q.location = "path"
    · exact ih _ (Or.inr (by rw [if_pos hq]; exact dictInsert_ne_nil _ _ _))
    · rw [if_neg hq]
      rcases h with ⟨p, hp, hploc⟩ | h
      · rcases List.mem_cons.mp hp with rfl | hp'
        · exact absurd hploc hq
        · exact ih _ (Or.inl ⟨p, hp', hploc⟩)
      · exact ih _ (Or.inr h)

/-- The parameter named id with integer type and falsy declared example 0. -/
def c8Param : Parameter :=
  { name := "id", location := "path", schema_type := "integer", exampleVal := .int 0 }

/-- Path parameter of integer type with the falsy declared example 0. -/
def c8Endpoint : Endpoint :=
  { path := "/p/{id}"
    method := "GET"
    operation_id := some "get_p"
    parameters := [c8Param]
    responses := [{ status_code := 200 }] }

/-- C8 (counterexample): the declared example 0 is falsy, so the happy path
uses the type-based example 1 instead of the declared 0. -/
theorem c8_counterexample :
    (generateHappyPath 1 c8Endpoint specT).map (fun tc => tc.path_params) =
      Except.ok (some [("id", .int 1)]) ∧ JValue.int 1 ≠ JValue.int 0 :=
  ⟨rfl, by simp⟩

/-- C8 (amended): the happy-path value of every path parameter is its
declared example when the example is truthy, and otherwise the type-based
example (string/integer/number/boolean/uuid table, default test-value);
falsy examples such as 0, false or the empty string fall back to the
type-based example. -/
theorem c8_path_param_values :
    (generateExampleValue "string" = .str "test-string" ∧
      generateExampleValue "integer" = .int 1 ∧
      generateExampleValue "number" = .float 1 ∧
      generateExampleValue "boolean" = .bool true ∧
      generateExampleValue "uuid" = .str "123e4567-e89b-12d3-a456-426614174000" ∧
      ∀ t, t ≠ "string" → t ≠ "integer" → t ≠ "number" → t ≠ "boolean" →
        t ≠ "uuid" → generateExampleValue t = .str "test-value") ∧
    (∀ fuel ep spec tc, generateHappyPath fuel ep spec = Except.ok tc →
      ((ep.parameters.filter (fun p => p.location = "path")).map
        (fun p => p.name)).Nodup →
      ∀ p ∈ ep.parameters, p.location = "path" →
        ∃ pp, tc.path_params = some pp ∧
          dictLookup pp p.name =
            some (if p.exampleVal.truthy then p.exampleVal
              else generateExampleValue p.schema_type)) := by
  constructor
  · refine ⟨rfl, rfl, rfl, rfl, rfl, ?_⟩
    intro t h1 h2 h3 h4 h5
    simp [generateExampleValue, h1, h2, h3, h4, h5]
  · intro fuel ep spec tc h hnd p hp hloc
    have hpp := (generateHappyPath_fields fuel ep spec tc h).2.2.2.2.1
    have hne : (happyPathParams ep.parameters).isEmpty = false := by
      rw [List.isEmpty_eq_false_iff_exists_mem]
      have := happyFold_ne_nil ep.parameters [] (Or.inl ⟨p, hp, hloc⟩)
      rcases hx : happyPathParams ep.parameters with _ | ⟨kv, rest⟩
      · exact absurd hx this
      · exact ⟨kv, by simp⟩
    rw [hne] at hpp
    simp only [ite_false, Bool.false_eq_true, if_false] at hpp
    refine ⟨happyPathParams ep.parameters, hpp, ?_⟩
    have := happyFold_lookup ep.parameters [] hnd p hp hloc
    rw [show happyPathParams ep.parameters = ep.parameters.foldl
      (fun acc p =>
        if p.location = "path" then dictInsert acc p.name (happyParamValue p)
        else acc) [] from rfl]
    rw [this]
    rfl

/-- The happy-path case generated for `c8Endpoint`. -/
def c8HappyCase : GeneratedTestCase :=
  { name := "test_get_p_success"
    description := "Test successful GET /p/{id}"
    method := "GET"
    path := "/p/{id}"
    expected_status := 200
    request_body := none
    path_params := some [("id", .int 1)]
    query_params := none
    assertions := ["assert response.status_code == 200",
      "assert response.json() is not None"] }

/-- C8 (witness): the concrete falsy-example endpoint evaluated through the
amended rule. -/
theorem c8_witness :
    ∃ pp, c8HappyCase.path_params = some pp ∧
      dictLookup pp c8Param.name =
        some (if c8Param.exampleVal.truthy then c8Param.exampleVal
          else generateExampleValue c8Param.schema_type) :=
  c8_path_param_values.2 1 c8Endpoint specT c8HappyCase rfl (by decide)
    c8Param (List.mem_cons_self _ _) rfl

/-! ## C9 -/

/-- Bind of an `ok` value steps. -/
theorem except_ok_bind {e a b : Type} (x : a) (f : a → Except e b) :
    (Except.ok x : Except e a) >>= f = f x := rfl

/-- Characterization of the property fold of `_generate_example_body` for a
list-valued `required`: a property is assigned exactly when it is named in
`required` or `required` is empty, and it receives the synthesized value of
its schema. -/
theorem bodyFold_props (stv : JValue → Except GenErr JValue) (rnames : List JValue) :
    ∀ (props : List (String × JValue)) (d body : List (String × JValue)),
    (props.map Prod.fst).Nodup →
    props.foldlM
      (fun (body : List (String × JValue)) kv => do
        let isReq ← pyContainsStr (.arr rnames) kv.1
        if isReq || !(JValue.arr rnames).truthy then do
          let v ← stv kv.2
          pure (dictInsert body kv.1 v)
        else pure body) d = Except.ok body →
    (∀ k, k ∉ props.map Prod.fst → dictLookup body k = dictLookup d k) ∧
    (∀ k s, (k, s) ∈ props →
      ((rnames.any (fun x => jvalIsStr x k) || rnames.isEmpty) = true →
        ∃ v, stv s = Except.ok v ∧ dictLookup body k = some v) ∧
      ((rnames.any (fun x => jvalIsStr x k) || rnames.isEmpty) = false →
        dictLookup body k = dictLookup d k)) ∧
    (∀ k v, (k, v) ∈ body → (k, v) ∈ d ∨ ∃ s, (k, s) ∈ props ∧
      (rnames.any (fun x => jvalIsStr x k) || rnames.isEmpty) = true ∧
      stv s = Except.ok v) := by
  intro props
  induction props with
  | nil =>
    intro d body hnd h
    have hbd : d = body := by
      simpa [List.foldlM, pure, Except.pure] using h
    subst hbd
    refine ⟨fun k _ => rfl, fun k s hk => absurd hk (List.not_mem_nil _), ?_⟩
    exact fun k v hkv => Or.inl hkv
  | cons kv props' ih =>
    intro d body hnd h
    obtain ⟨k₀, s₀⟩ := kv
    have hnd0 : k₀ ∉ props'.map Prod.fst := (List.nodup_cons.mp hnd).1
    have hnd' : (props'.map Prod.fst).Nodup := (List.nodup_cons.mp hnd).2
    rw [List.foldlM_cons] at h
    have htr : (!(JValue.arr rnames).truthy) = rnames.isEmpty := by
      simp [JValue.truthy]
    rw [show pyContainsStr (.arr rnames) k₀ =
      Except.ok (rnames.any (fun x => jvalIsStr x k₀)) from rfl] at h
    rw [except_ok_bind] at h
    by_cases hpred : (rnames.any (fun x => jvalIsStr x k₀) || rnames.isEmpty) = true
    · rw [if_pos (show (rnames.any (fun x => jvalIsStr x k₀) ||
        !(JValue.arr rnames).truthy) = true by rw [htr]; exact hpred)] at h
      rw [bind_assoc] at h
      rw [except_bind_ok] at h
      obtain ⟨v₀, hv₀, h⟩ := h
      rw [pure_bind] at h
      obtain ⟨ihA, ihB, ihC⟩ := ih (dictInsert d k₀ v₀) body hnd' h
      refine ⟨?_, ?_, ?_⟩
      · intro k hk
        have hk1 : k ≠ k₀ := fun hc => hk (by rw [hc]; exact List.mem_cons_self _ _)
        have hk2 : k ∉ props'.map Prod.fst :=
          fun hc => hk (List.mem_cons_of_mem _ hc)
        rw [ihA k hk2, dictLookup_dictInsert, if_neg (fun hc => hk1 hc.symm)]
      · intro k s hks
        rcases List.mem_cons.mp hks with heq | hmem
        · have hk : k = k₀ := congrArg Prod.fst heq
          have hs : s = s₀ := congrArg Prod.snd heq
          constructor
          · intro _
            refine ⟨v₀, by rw [hs]; exact hv₀, ?_⟩
            rw [hk, ihA k₀ hnd0, dictLookup_dictInsert, if_pos rfl]
          · intro hfalse
            rw [hk] at hfalse
            exact absurd hpred (by simp [hfalse])
        · have hkne : k ≠ k₀ := by
            intro hc
            exact hnd0 (hc ▸ List.mem_map_of_mem Prod.fst hmem)
          constructor
          · intro hp
            exact (ihB k s hmem).1 hp
          · intro hp
            rw [(ihB k s hmem).2 hp, dictLookup_dictInsert,
              if_neg (fun hc => hkne hc.symm)]
      · intro k v hkv
        rcases ihC k v hkv with hin | ⟨s, hs, hp, hv⟩
        · rcases mem_dictInsert d k₀ v₀ k v hin with ⟨hk, hv⟩ | hin'
          · subst hk
            subst hv
            exact Or.inr ⟨s₀, List.mem_cons_self _ _, hpred, hv₀⟩
          · exact Or.inl hin'
        · exact Or.inr ⟨s, List.mem_cons_of_mem _ hs, hp, hv⟩
    · have hpred' : (rnames.any (fun x => jvalIsStr x k₀) || rnames.isEmpty) = false := by
        simpa using hpred
      rw [if_neg (show ¬ (rnames.any (fun x => jvalIsStr x k₀) ||
        !(JValue.arr rnames).truthy) = true by rw [htr]; exact hpred)] at h
      rw [pure_bind] at h
      obtain ⟨ihA, ihB, ihC⟩ := ih d body hnd' h
      refine ⟨?_, ?_, ?_⟩
      · intro k hk
        exact ihA k (fun hc => hk (List.mem_cons_of_mem _ hc))
      · intro k s hks
        rcases List.mem_cons.mp hks with heq | hmem
        · have hk : k = k₀ := congrArg Prod.fst heq
          constructor
          · intro hp
            rw [hk] at hp
            exact absurd hp (by simp [hpred'])
          · intro _
            rw [hk]
            exact ihA k₀ hnd0
        · exact ihB k s hmem
      · intro k v hkv
        rcases ihC k v hkv with hin | ⟨s, hs, hp, hv⟩
        · exact Or.inl hin
        · exact Or.inr ⟨s, List.mem_cons_of_mem _ hs, hp, hv⟩

/-- The request-body schema of the C9 example endpoint. -/
def c9Schema : JValue :=
  .obj [("type", .str "object"), ("required", .arr [.str "name"]),
    ("properties", .obj [("name", .obj [("type", .str "string")])])]

/-- POST /items with operationId create_item, a 201 response and the object
schema requiring only `name`. -/
def c9Endpoint : Endpoint :=
  { path := "/items"
    method := "POST"
    operation_id := some "create_item"
    request_body := some { schema := c9Schema }
    responses := [{ status_code := 201 }] }

/-- C9: for a request-body schema with an object property table and a
list-valued `required`, the synthesized body contains a property exactly
when it is listed in `required` or `required` is absent/empty, mapped to
the recursively synthesized value of its schema; and the concrete
create_item example produces test_create_item_success with status 201 and
body containing name equal to test-string. -/
theorem c9_body_production :
    (∀ fuel schema tbl props rnames body,
      schema.truthy = true →
      pyGet schema "properties" (.obj []) = Except.ok (.obj props) →
      pyGet schema "required" (.arr []) = Except.ok (.arr rnames) →
      (props.map Prod.fst).Nodup →
      generateExampleBody fuel schema tbl = Except.ok (.obj body) →
      (∀ k s, (k, s) ∈ props →
        ((rnames.any (fun x => jvalIsStr x k) || rnames.isEmpty) = true →
          ∃ v, schemaToValue fuel s tbl = Except.ok v ∧
            dictLookup body k = some v) ∧
        ((rnames.any (fun x => jvalIsStr x k) || rnames.isEmpty) = false →
          dictLookup body k = none)) ∧
      (∀ k v, (k, v) ∈ body → ∃ s, (k, s) ∈ props ∧
        (rnames.any (fun x => jvalIsStr x k) || rnames.isEmpty) = true ∧
        schemaToValue fuel s tbl = Except.ok v)) ∧
    (generateTestPlan 5 c9Endpoint specT).map
      (fun p => p.test_cases.map
        (fun tc => (tc.name, tc.expected_status, tc.request_body))) =
      Except.ok [("test_create_item_success", 201,
        some (.obj [("name", .str "test-string")]))] := by
  constructor
  · intro fuel schema tbl props rnames body htr hprops hreq hnd hok
    unfold generateExampleBody exampleBodyWith at hok
    rw [if_neg (by simp [htr])] at hok
    rw [hprops, except_ok_bind, hreq, except_ok_bind] at hok
    have hok' : props.foldlM
        (fun (body : List (String × JValue)) kv => do
          let isReq ← pyContainsStr (.arr rnames) kv.1
          if isReq || !(JValue.arr rnames).truthy then do
            let v ← schemaToValue fuel kv.2 tbl
            pure (dictInsert body kv.1 v)
          else pure body) [] >>=
        (fun b => Except.ok (JValue.obj b)) = Except.ok (.obj body) := hok
    rw [except_bind_ok] at hok'
    obtain ⟨b, hfold, hinj⟩ := hok'
    injection hinj with h1
    injection h1 with h2
    subst h2
    obtain ⟨-, hB, hC⟩ :=
      bodyFold_props (fun s => schemaToValue fuel s tbl) rnames props [] b hnd hfold
    refine ⟨?_, ?_⟩
    · intro k s hks
      exact ⟨(hB k s hks).1, fun hp => (hB k s hks).2 hp⟩
    · intro k v hkv
      rcases hC k v hkv with hin | h'
      · cases hin
      · exact h'
  · rfl

/-- C9 (witness): the production rule applied to the concrete name/string
property of the create_item schema. -/
theorem c9_witness :
    ∃ v, schemaToValue 2 (.obj [("type", .str "string")]) [] = Except.ok v ∧
      dictLookup [("name", .str "test-string")] "name" = some v := by
  have h := c9_body_production.1 2 c9Schema []
    [("name", .obj [("type", .str "string")])] [.str "name"]
    [("name", .str "test-string")] rfl rfl rfl (by decide) rfl
  exact (h.1 "name" (.obj [("type", .str "string")]) (List.mem_cons_self _ _)).1
    (by decide)

/-! ## C3 -/

/-- The component schema A of the cyclic document: an object whose `child`
property refers back to A. -/
def c3SchemaA : JValue :=
  .obj [("type", .str "object"),
    ("properties", .obj [("child", .obj [("$ref", .str "#/components/schemas/A")])])]

/-- The reference to component A. -/
def c3RefA : JValue := .obj [("$ref", .str "#/components/schemas/A")]

/-- The component table of the cyclic document. -/
def c3Schemas : List (String × JValue) := [("A", c3SchemaA)]

/-- Spec carrying the cyclic component table. -/
def c3Spec : NormalizedSpec :=
  { title := "Cyclic", version := "1", schemas := c3Schemas }

/-- POST endpoint whose request-body schema is the (resolved) body of A. -/
def c3Endpoint : Endpoint :=
  { path := "/items"
    method := "POST"
    operation_id := some "create_item"
    request_body := some { schema := c3SchemaA }
    responses := [{ status_code := 201 }] }

/-- One unwinding of the synthesis on the cyclic schema: the body of A needs
the value of the reference back to A. -/
theorem c3_step (n : Nat)
    (h : schemaToValue n c3RefA c3Schemas = Except.error .outOfFuel) :
    exampleBodyWith (fun s => schemaToValue n s c3Schemas) c3SchemaA =
      Except.error .outOfFuel := by
  have hshape : exampleBodyWith (fun s => schemaToValue n s c3Schemas) c3SchemaA =
      (((schemaToValue n c3RefA c3Schemas).bind
          (fun a => Except.ok [("child", a)])).bind
        (fun a => Except.ok a)).bind (fun a => Except.ok (JValue.obj a)) := rfl
  rw [hshape, h]
  rfl

/-- C3: on the self-referential component schema A the example-body
synthesis never returns within any recursion budget — the mutual recursion
of `_schema_to_value` and `_generate_example_body` descends through the
cycle forever, so in Python `generate_test_plan` raises `RecursionError`
on this successfully normalized spec instead of returning a plan. -/
theorem c3_cyclic_nontermination :
    ∀ fuel, schemaToValue fuel c3RefA c3Schemas = Except.error .outOfFuel ∧
      generateTestPlan fuel c3Endpoint c3Spec = Except.error .outOfFuel := by
  have hs : ∀ n, schemaToValue n c3RefA c3Schemas = Except.error .outOfFuel := by
    intro n
    induction n with
    | zero => rfl
    | succ n ih =>
      have hstep : schemaToValue (n + 1) c3RefA c3Schemas =
          exampleBodyWith (fun s => schemaToValue n s c3Schemas) c3SchemaA := rfl
      rw [hstep]
      exact c3_step n ih
  intro fuel
  refine ⟨hs fuel, ?_⟩
  have hb : generateExampleBody fuel c3SchemaA c3Schemas = Except.error .outOfFuel :=
    c3_step fuel (hs fuel)
  have hreq : happyRequestBody fuel c3Endpoint c3Spec = Except.error .outOfFuel := by
    show (generateExampleBody fuel c3SchemaA c3Schemas).map some =
      Except.error .outOfFuel
    rw [hb]
    rfl
  have hhp : generateHappyPath fuel c3Endpoint c3Spec = Except.error .outOfFuel := by
    unfold generateHappyPath
    rw [hreq]
    rfl
  unfold generateTestPlan
  rw [hhp]
  rfl

/-! ## C2 -/

mutual

/-- A mapping with key `$ref` occurs somewhere inside the value. -/
def hasRefDeep : JValue → Bool
  | .obj kvs => dictHasKey kvs "$ref" || hasRefDeepFields kvs
  | .arr xs => hasRefDeepList xs
  | _ => false

/-- Deep `$ref` check over the values of a field list. -/
def hasRefDeepFields : List (String × JValue) → Bool
  | [] => false
  | kv :: rest => hasRefDeep kv.2 || hasRefDeepFields rest

/-- Deep `$ref` check over the elements of an array. -/
def hasRefDeepList : List JValue → Bool
  | [] => false
  | x :: rest => hasRefDeep x || hasRefDeepList rest

end

/-- Bind of a `some` value steps. -/
theorem option_some_bind {a b : Type} (x : a) (f : a → Option b) :
    (some x >>= f) = f x := rfl

/-- Key membership after a Python dict assignment. -/
theorem dictHasKey_dictInsert (d : List (String × JValue)) (k : String)
    (v : JValue) (q : String) :
    dictHasKey (dictInsert d k v) q = (k == q || dictHasKey d q) := by
  induction d with
  | nil => simp [dictInsert, dictHasKey]
  | cons kv rest ih =>
    by_cases hk : kv.1 = k
    · have h1 : dictInsert (kv :: rest) k v = (k, v) :: rest := by
        simp only [dictInsert, if_pos hk]
      rw [h1]
      simp only [dictHasKey, List.any_cons, hk]
      cases k == q <;> simp only [Bool.true_or, Bool.false_or]
    · simp only [dictInsert, if_neg hk, dictHasKey, List.any_cons]
      rw [show (dictInsert rest k v).any (fun kv => kv.1 == q) =
        (k == q || dictHasKey rest q) from ih]
      simp only [dictHasKey]
      rw [Bool.or_left_comm]

/-- A key that misses has no entry. -/
theorem dictLookup_eq_none (d : List (String × JValue)) (k : String)
    (h : k ∉ d.map Prod.fst) : dictLookup d k = none := by
  induction d with
  | nil => rfl
  | cons kv rest ih =>
    have h1 : ¬ kv.1 = k := fun hc => h (by rw [← hc]; exact List.mem_cons_self _ _)
    simp only [dictLookup, if_neg h1]
    exact ih (fun hc => h (List.mem_cons_of_mem _ hc))

/-- A key that hits is a member key. -/
theorem dictHasKey_of_lookup (d : List (String × JValue)) (k : String) (v : JValue)
    (h : dictLookup d k = some v) : dictHasKey d k = true := by
  induction d with
  | nil => cases h
  | cons kv rest ih =>
    by_cases hk : kv.1 = k
    · simp only [dictHasKey, List.any_cons]
      rw [show (kv.1 == k) = true by simpa using hk]
      rfl
    · simp only [dictLookup, if_neg hk] at h
      simp only [dictHasKey, List.any_cons]
      rw [show List.any rest (fun kv => kv.1 == k) = true from ih h]
      simp only [Bool.or_true]

/-- The sibling-merge loop of `_resolve_schema` keeps the `$ref` key status
of the resolved fragment: siblings with key `$ref` are skipped. -/
theorem mergeFold_hasKey (fields resolved : List (String × JValue)) :
    dictHasKey (fields.foldl
      (fun acc kv => if kv.1 = "$ref" then acc else dictInsert acc kv.1 kv.2)
      resolved) "$ref" = dictHasKey resolved "$ref" := by
  induction fields generalizing resolved with
  | nil => rfl
  | cons kv rest ih =>
    simp only [List.foldl_cons]
    by_cases hk : kv.1 = "$ref"
    · rw [if_pos hk, ih]
    · rw [if_neg hk, ih, dictHasKey_dictInsert]
      have : (kv.1 == "$ref") = false := by
        simpa using hk
      rw [this]
      rfl

/-- The sibling-merge loop of `_resolve_schema` gives sibling keys
precedence over the resolved fragment. -/
theorem mergeFold_lookup (fields resolved : List (String × JValue))
    (hnd : (fields.map Prod.fst).Nodup) (k : String) (hk : k ≠ "$ref") :
    dictLookup (fields.foldl
      (fun acc kv => if kv.1 = "$ref" then acc else dictInsert acc kv.1 kv.2)
      resolved) k =
    (match dictLookup fields k with
     | some v => some v
     | none => dictLookup resolved k) := by
  induction fields generalizing resolved with
  | nil => rfl
  | cons kv rest ih =>
    have hnd0 : kv.1 ∉ rest.map Prod.fst := (List.nodup_cons.mp hnd).1
    have hnd' : (rest.map Prod.fst).Nodup := (List.nodup_cons.mp hnd).2
    simp only [List.foldl_cons]
    by_cases href : kv.1 = "$ref"
    · rw [if_pos href, ih resolved hnd']
      have h1 : ¬ kv.1 = k := fun hc => hk (hc ▸ href)
      simp only [dictLookup, if_neg h1]
    · rw [if_neg href, ih _ hnd']
      by_cases hkk : kv.1 = k
      · have hnone : dictLookup rest k = none :=
          dictLookup_eq_none rest k (fun hc => hnd0 (hkk ▸ hc))
      
        rw [hnone, dictLookup_dictInsert, if_pos hkk]
        simp only [dictLookup, if_pos hkk]
      · simp only [dictLookup, if_neg hkk]
        cases hrest : dictLookup rest k with
        | none =>
          rw [dictLookup_dictInsert, if_neg hkk]
        | some v => rfl

/-- The raw document with a `$ref` nested inside an object property of the
request-body schema. -/
def nestedRefDoc : JValue :=
  .obj [("openapi", .str "3.0.0"),
    ("info", .obj [("title", .str "T"), ("version", .str "1.0")]),
    ("paths", .obj [
      ("/a", .obj [("post", .obj [
        ("requestBody", .obj [("content", .obj [("application/json", .obj [
          ("schema", .obj [("type", .str "object"),
            ("properties", .obj [("x", .obj [("$ref", .str "#/components/schemas/X")])])])])])]),
        ("responses", .obj [])])])]),
    ("components", .obj [("schemas", .obj [("X", .obj [("type", .str "string")])])])]

/-- The schema stored on the normalized request body of `nestedRefDoc`. -/
def c2StoredSchema : JValue :=
  .obj [("type", .str "object"),
    ("properties", .obj [("x", .obj [("$ref", .str "#/components/schemas/X")])])]

/-- C2 (counterexample): `nestedRefDoc` normalizes successfully, yet the
stored RequestBody schema still contains a `$ref` key nested inside
`properties`. -/
theorem c2_counterexample :
    (normalizeSpec nestedRefDoc).map
      (fun s => s.endpoints.map (fun e => e.request_body.map (fun rb => rb.schema))) =
      Except.ok [some c2StoredSchema] ∧
    hasRefDeep c2StoredSchema = true :=
  ⟨rfl, rfl⟩

/-- C2 (amended): `_resolve_schema` resolves only one top-level `$ref`: a
falsy schema becomes empty, a schema without a top-level `$ref` is stored
unchanged (deeper `$ref` keys survive, as the counterexample shows), and a
schema with a top-level `$ref` becomes the referenced fragment with its
sibling keys written over it — the `$ref` key itself is dropped, so the
result has a top-level `$ref` key exactly when the referenced fragment
itself has one, sibling keys take precedence over the fragment's, and a
non-local reference resolves to the empty mapping, so a sibling-free
external ref collapses to an empty schema. -/
theorem c2_resolve_one_step :
    (∀ schema doc : JValue, schema.truthy = false →
      resolveSchema schema doc = some (.obj [])) ∧
    (∀ schema doc : JValue, schema.truthy = true →
      pyInP schema "$ref" = some false →
      resolveSchema schema doc = some schema) ∧
    (∀ (kvs : List (String × JValue)) (doc : JValue) (rs : String),
      dictLookup kvs "$ref" = some (.str rs) →
      (kvs.map Prod.fst).Nodup →
      ∃ out, resolveSchema (.obj kvs) doc = some (.obj out) ∧
        dictHasKey out "$ref" = dictHasKey (resolveRef rs doc) "$ref" ∧
        (∀ k, k ≠ "$ref" →
          dictLookup out k =
            (match dictLookup kvs k with
             | some v => some v
             | none => dictLookup (resolveRef rs doc) k))) ∧
    (∀ (doc : JValue) (rs : String), pyStartsWith rs "#/" = false →
      resolveRef rs doc = []) := by
  refine ⟨?_, ?_, ?_, ?_⟩
  · intro schema doc h
    unfold resolveSchema
    rw [if_pos (by simp [h])]
    rfl
  · intro schema doc ht h
    unfold resolveSchema
    rw [if_neg (by simp [ht]), h, option_some_bind, if_neg (by simp)]
    rfl
  · intro kvs doc rs href hnd
    have hkey : dictHasKey kvs "$ref" = true :=
      dictHasKey_of_lookup kvs "$ref" (.str rs) href
    have htruthy : (JValue.obj kvs).truthy = true := by
      cases kvs with
      | nil => cases href
      | cons kv rest => rfl
    refine ⟨kvs.foldl
      (fun acc kv => if kv.1 = "$ref" then acc else dictInsert acc kv.1 kv.2)
      (resolveRef rs doc), ?_, mergeFold_hasKey _ _, ?_⟩
    · unfold resolveSchema
      rw [if_neg (by simp [htruthy])]
      rw [show pyInP (.obj kvs) "$ref" = some (dictHasKey kvs "$ref") from rfl, hkey,
        option_some_bind, if_pos rfl]
      rw [show pyIndexP (.obj kvs) "$ref" = dictLookup kvs "$ref" from rfl, href,
        option_some_bind]
      rfl
    · intro k hk
      exact mergeFold_lookup kvs (resolveRef rs doc) hnd k hk
  · intro doc rs h
    unfold resolveRef
    rw [if_pos (by simp [h])]

/-- C2 (witness): the one-step rule at a concrete ref-with-sibling schema,
and the non-local case: an external ref resolves to the empty mapping, so
the lone-`$ref` schema collapses to the empty schema. -/
theorem c2_witness :
    (∃ out,
      resolveSchema (.obj [("$ref", .str "#/components/schemas/X"),
        ("description", .str "override")])
        (.obj [("components", .obj [("schemas", .obj [("X", .obj [("type", .str "string")])])])]) =
        some (.obj out) ∧
      dictHasKey out "$ref" =
        dictHasKey (resolveRef "#/components/schemas/X"
          (.obj [("components", .obj [("schemas", .obj [("X", .obj [("type", .str "string")])])])]))
          "$ref" ∧
      (∀ k, k ≠ "$ref" →
        dictLookup out k =
          (match dictLookup [("$ref", JValue.str "#/components/schemas/X"),
              ("description", JValue.str "override")] k with
           | some v => some v
           | none => dictLookup (resolveRef "#/components/schemas/X"
              (.obj [("components", .obj [("schemas",
                .obj [("X", .obj [("type", .str "string")])])])])) k))) ∧
    resolveRef "external" (JValue.obj []) = [] ∧
    resolveSchema (JValue.obj [("$ref", JValue.str "external")]) (JValue.obj []) =
      some (JValue.obj []) :=
  ⟨c2_resolve_one_step.2.2.1
    [("$ref", .str "#/components/schemas/X"), ("description", .str "override")]
    (.obj [("components", .obj [("schemas", .obj [("X", .obj [("type", .str "string")])])])])
    "#/components/schemas/X" rfl (by decide),
   c2_resolve_one_step.2.2.2 (JValue.obj []) "external" rfl,
   rfl⟩

/-! ## C5 -/

/-- Strict lexicographic order is irreflexive. -/
theorem charListLt_irrefl (as : List Char) : charListLt as as = false := by
  induction as with
  | nil => rfl
  | cons a as ih => simp [charListLt, lt_irrefl, ih]

/-- Strict lexicographic order is transitive. -/
theorem charListLt_trans :
    ∀ as bs cs, charListLt as bs = true → charListLt bs cs = true →
      charListLt as cs = true := by
  intro as
  induction as with
  | nil =>
    intro bs cs h1 h2
    cases bs with
    | nil => exact h2
    | cons b bs =>
      cases cs with
      | nil => cases h2
      | cons c cs => rfl
  | cons a as ih =>
    intro bs cs h1 h2
    cases bs with
    | nil => cases h1
    | cons b bs =>
      cases cs with
      | nil => cases h2
      | cons c cs =>
        simp only [charListLt] at h1 h2 ⊢
        by_cases hab : a < b
        · by_cases hbc : b < c
          · rw [if_pos (lt_trans hab hbc)]
          · rw [if_neg hbc] at h2
            by_cases hcb : c < b
            · rw [if_pos hcb] at h2
              cases h2
            · have hbceq : b = c := le_antisymm (not_lt.mp hcb) (not_lt.mp hbc)
              rw [if_pos (hbceq ▸ hab)]
        · rw [if_neg hab] at h1
          by_cases hba : b < a
          · rw [if_pos hba] at h1
            cases h1
          · rw [if_neg hba] at h1
            have habeq : a = b := le_antisymm (not_lt.mp hba) (not_lt.mp hab)
            subst habeq
            by_cases hac : a < c
            · rw [if_pos hac]
            · rw [if_neg hac]
              by_cases hca : c < a
              · rw [if_neg hac, if_pos hca] at h2
                cases h2
              · rw [if_neg hca]
                rw [if_neg hac, if_neg hca] at h2
                exact ih bs cs h1 h2

/-- Incomparable lists are equal. -/
theorem charListLt_eq_of_not :
    ∀ as bs, charListLt as bs = false → charListLt bs as = false → as = bs := by
  intro as
  induction as with
  | nil =>
    intro bs h1 h2
    cases bs with
    | nil => rfl
    | cons b bs => cases h1
  | cons a as ih =>
    intro bs h1 h2
    cases bs with
    | nil => cases h2
    | cons b bs =>
      simp only [charListLt] at h1 h2
      by_cases hab : a < b
      · rw [if_pos hab] at h1
        cases h1
      · by_cases hba : b < a
        · rw [if_pos hba] at h2
          cases h2
        · rw [if_neg hab, if_neg hba] at h1
          rw [if_neg hba, if_neg hab] at h2
          have habeq : a = b := le_antisymm (not_lt.mp hba) (not_lt.mp hab)
          rw [habeq, ih bs h1 h2]

/-- Strings: incomparable means equal. -/
theorem strLtb_eq_of_not (a b : String) (h1 : strLtb a b = false)
    (h2 : strLtb b a = false) : a = b := by
  cases a with
  | mk d1 =>
    cases b with
    | mk d2 => exact congrArg String.mk (charListLt_eq_of_not d1 d2 h1 h2)

/-- The sort order is total. -/
instance : IsTotal String strLe where
  total a b := by
    unfold strLe strLeb
    cases h1 : strLtb b a
    · left
      rfl
    · cases h2 : strLtb a b
      · right
        rfl
      · have := charListLt_trans a.data b.data a.data h2 h1
        rw [charListLt_irrefl] at this
        cases this

/-- The sort order is transitive. -/
instance : IsTrans String strLe where
  trans a b c hab hbc := by
    unfold strLe strLeb at hab hbc ⊢
    cases hba : strLtb b a
    · cases hcb : strLtb c b
      · cases hca : strLtb c a
        · rfl
        · have hbc' : b = c := by
            cases hbcx : strLtb b c
            · exact strLtb_eq_of_not b c hbcx hcb
            · have h' : strLtb b a = true :=
                charListLt_trans b.data c.data a.data hbcx hca
              rw [hba] at h'
              cases h'
          rw [hbc', hca] at hba
          cases hba
      · rw [hcb] at hbc
        cases hbc
    · rw [hba] at hab
      cases hab

/-- Sorted with distinct elements is strictly ascending. -/
theorem sorted_nodup_strict (l : List String) (hs : l.Pairwise strLe)
    (hnd : l.Nodup) : l.Pairwise (fun a b => strLtb a b = true) := by
  have := List.Pairwise.and hs hnd
  refine this.imp ?_
  rintro a b ⟨hle, hne⟩
  unfold strLe strLeb at hle
  cases hab : strLtb a b
  · exact absurd (strLtb_eq_of_not a b hab (by simpa using hle)) hne
  · rfl

/-- Sorting preserves the element set and produces a strictly ascending
list when the input keys are distinct. -/
theorem pySortStrings_strict (l : List String) (hnd : l.Nodup) :
    (pySortStrings l).Pairwise (fun a b => strLtb a b = true) ∧
    ∀ k, k ∈ pySortStrings l ↔ k ∈ l := by
  have hperm : List.Perm (pySortStrings l) l := List.perm_insertionSort strLe l
  refine ⟨sorted_nodup_strict _ ?_ (hperm.nodup_iff.mpr hnd), fun k => hperm.mem_iff⟩
  exact List.sorted_insertionSort strLe l

/-- Bind in `Option` returns `some` exactly when both stages do. -/
theorem option_bind_eq_some {a b : Type} (x : Option a) (f : a → Option b) (v : b) :
    (x >>= f) = some v ↔ ∃ w, x = some w ∧ f w = some v := by
  cases x <;> simp

/-- A parsed endpoint carries the walked path and the upper-cased method. -/
theorem parseEndpoint_path_method (path method : String) (op doc : JValue)
    (e : RawEndpoint) (h : parseEndpoint path method op doc = some e) :
    e.path = path ∧ e.method = asciiUpper method := by
  unfold parseEndpoint at h
  simp only [option_bind_eq_some] at h
  obtain ⟨pv, h1, pe, h2, ps, h3, oi, h4, sv, h5, dv, h6, tv, h7, bv, h8, rb, h9,
    rv, h10, rs, h11, hfin⟩ := h
  injection hfin with hfin
  subst hfin
  exact ⟨rfl, rfl⟩

/-- A method step either keeps the accumulator or appends one endpoint with
the walked path and upper-cased method. -/
theorem methodStep_cases (path : String) (pathItem : List (String × JValue))
    (raw : JValue) (pathParams : JValue) (acc : List RawEndpoint) (m : String)
    (out : List RawEndpoint) (h : methodStep path pathItem raw pathParams acc m = some out) :
    out = acc ∨ ∃ ep, out = acc ++ [ep] ∧ ep.path = path ∧
      ep.method = asciiUpper m := by
  unfold methodStep at h
  by_cases hkey : dictHasKey pathItem m
  · rw [if_pos hkey] at h
    split at h
    · simp only [option_bind_eq_some] at h
      obtain ⟨op, hop, ep, hep, hpure⟩ := h
      injection hpure with hpure
      exact Or.inr ⟨ep, hpure.symm,
        (parseEndpoint_path_method path m op raw ep hep).1,
        (parseEndpoint_path_method path m op raw ep hep).2⟩
    · injection h with h
      exact Or.inl h.symm
  · rw [if_neg hkey] at h
    injection h with h
    exact Or.inl h.symm

/-- The method fold appends endpoints whose methods upper-case a sublist of
the iterated method list and whose path is the walked path. -/
theorem methodFold_shape (path : String) (pathItem : List (String × JValue))
    (raw : JValue) (pathParams : JValue) :
    ∀ (ms : List String) (acc out : List RawEndpoint),
    ms.foldlM (methodStep path pathItem raw pathParams) acc = some out →
    ∃ tail, out = acc ++ tail ∧ (∀ e ∈ tail, e.path = path) ∧
      ∃ sub, List.Sublist sub ms ∧
        tail.map (fun e => e.method) = sub.map asciiUpper := by
  intro ms
  induction ms with
  | nil =>
    intro acc out h
    have hao : acc = out := by
      simpa [List.foldlM, pure] using h
    exact ⟨[], by simp [hao], by simp, [], List.nil_sublist _, by simp⟩
  | cons m ms ih =>
    intro acc out h
    rw [List.foldlM_cons, option_bind_eq_some] at h
    obtain ⟨acc', hstep, hrest⟩ := h
    obtain ⟨tail', htail', hpath', sub', hsub', hmap'⟩ := ih acc' out hrest
    rcases methodStep_cases path pathItem raw pathParams acc m acc' hstep with
      heq | ⟨ep, heq, heppath, hepm⟩
    · subst heq
      exact ⟨tail', htail', hpath', sub', List.Sublist.cons m hsub', hmap'⟩
    · subst heq
      refine ⟨ep :: tail', by simp [htail'], ?_, m :: sub',
        List.Sublist.cons₂ m hsub', by simp [hmap', hepm]⟩
      intro e he
      rcases List.mem_cons.mp he with rfl | he'
      · exact heppath
      · exact hpath' e he'

/-- Ascending lexicographic order on (path, method) pairs. -/
def pairLexLt (a b : String × String) : Prop :=
  strLtb a.1 b.1 = true ∨ (a.1 = b.1 ∧ strLtb a.2 b.2 = true)

set_option maxRecDepth 10000 in
/-- The sorted method set, upper-cased, is strictly ascending. -/
theorem upperMethods_pairwise :
    ((pySortStrings httpMethods).map asciiUpper).Pairwise
      (fun a b => strLtb a b = true) := by
  decide

/-- Endpoints of one path group are pairwise ascending in the pair order. -/
theorem group_pairwise (eps : List RawEndpoint) (p : String)
    (hpath : ∀ e ∈ eps, e.path = p)
    (sub : List String) (hsub : List.Sublist sub (pySortStrings httpMethods))
    (hmap : eps.map (fun e => e.method) = sub.map asciiUpper) :
    (eps.map (fun e => (e.path, e.method))).Pairwise pairLexLt := by
  have hmeth : (eps.map (fun e => e.method)).Pairwise
      (fun a b => strLtb a b = true) := by
    rw [hmap]
    exact List.Pairwise.sublist (List.Sublist.map asciiUpper hsub) upperMethods_pairwise
  rw [List.pairwise_map] at hmeth ⊢
  refine List.Pairwise.imp_of_mem ?_ hmeth
  intro a b ha hb hlt
  exact Or.inr ⟨by rw [hpath a ha, hpath b hb], hlt⟩

/-- A path step either keeps the accumulator or appends one ascending group
of endpoints for the walked path. -/
theorem pathStep_cases (pathFields : List (String × JValue)) (rawSpec : JValue)
    (acc : List RawEndpoint) (p : String) (out : List RawEndpoint)
    (h : pathStep pathFields rawSpec acc p = some out) :
    out = acc ∨ ∃ eps, out = acc ++ eps ∧ (∀ e ∈ eps, e.path = p) ∧
      (eps.map (fun e => (e.path, e.method))).Pairwise pairLexLt := by
  unfold pathStep at h
  split at h
  · rw [option_bind_eq_some] at h
    obtain ⟨eps, heps, hpure⟩ := h
    injection hpure with hpure
    unfold normalizePathItem at heps
    obtain ⟨tail, htail, hpaths, sub, hsub, hmap⟩ :=
      methodFold_shape p _ rawSpec _ (pySortStrings httpMethods) [] eps heps
    rw [List.nil_append] at htail
    subst htail
    exact Or.inr ⟨eps, hpure.symm, hpaths, group_pairwise eps p hpaths sub hsub hmap⟩
  · injection h with h
    exact Or.inl h.symm

/-- The outer fold over strictly ascending path keys produces endpoints
whose (path, method) pairs are pairwise ascending. -/
theorem pathsFold_shape (pathFields : List (String × JValue)) (rawSpec : JValue) :
    ∀ (ks : List String) (acc out : List RawEndpoint),
    ks.Pairwise (fun a b => strLtb a b = true) →
    ks.foldlM (pathStep pathFields rawSpec) acc = some out →
    ∃ tail, out = acc ++ tail ∧ (∀ e ∈ tail, e.path ∈ ks) ∧
      (tail.map (fun e => (e.path, e.method))).Pairwise pairLexLt := by
  intro ks
  induction ks with
  | nil =>
    intro acc out _ h
    have hao : acc = out := by
      simpa [List.foldlM, pure] using h
    exact ⟨[], by simp [hao], by simp, by simp⟩
  | cons k ks ih =>
    intro acc out hkpw h
    rw [List.foldlM_cons, option_bind_eq_some] at h
    obtain ⟨acc', hstep, hrest⟩ := h
    have hkpw' : ks.Pairwise (fun a b => strLtb a b = true) :=
      (List.pairwise_cons.mp hkpw).2
    have hklt : ∀ b ∈ ks, strLtb k b = true := (List.pairwise_cons.mp hkpw).1
    obtain ⟨tail', htail', hmem', hpw'⟩ := ih acc' out hkpw' hrest
    rcases pathStep_cases pathFields rawSpec acc k acc' hstep with
      heq | ⟨eps, heq, hepspath, hepspw⟩
    · subst heq
      exact ⟨tail', htail', fun e he => List.mem_cons_of_mem k (hmem' e he), hpw'⟩
    · subst heq
      refine ⟨eps ++ tail', by simp [htail'], ?_, ?_⟩
      · intro e he
        rcases List.mem_append.mp he with he' | he'
        · rw [hepspath e he']
          exact List.mem_cons_self k ks
        · exact List.mem_cons_of_mem k (hmem' e he')
      · rw [List.map_append, List.pairwise_append]
        refine ⟨hepspw, hpw', ?_⟩
        intro a ha b hb
        obtain ⟨ea, hea, haeq⟩ := List.mem_map.mp ha
        obtain ⟨eb, heb, hbeq⟩ := List.mem_map.mp hb
        left
        rw [← haeq, ← hbeq]
        show strLtb ea.path eb.path = true
        rw [hepspath ea hea]
        exact hklt eb.path (hmem' eb heb)

/-- A successful normalization comes from a mapping document whose body
walk succeeded. -/
theorem normalizeSpec_ok_body (doc : JValue) (s : RawSpec)
    (h : normalizeSpec doc = Except.ok s) :
    ∃ raw, doc = JValue.obj raw ∧ ∃ info title version,
      normalizeSpecBody raw doc info title version = some s := by
  unfold normalizeSpec at h
  repeat' split at h
  all_goals try exact Except.noConfusion h
  rename_i v1 kvs v2 t heq3
  unfold normalizeVersionCheck at h
  split at h
  · repeat' split at h
    all_goals exact Except.noConfusion h
  unfold normalizeWithVersionOk at h
  repeat' split at h
  all_goals try exact Except.noConfusion h
  rename_i title heqt h1
  unfold normalizeWithTitle at h
  repeat' split at h
  all_goals try exact Except.noConfusion h
  rename_i version heqv h2
  unfold normalizeWithTitleVersion at h
  split at h
  · rename_i s2 heq0
    injection h with h3
    subst h3
    exact ⟨kvs, rfl, _, title, version, heq0⟩
  · exact Except.noConfusion h

/-- The ordering example from the unit tests: paths `/z` (post, get) and
`/a` (delete, get). -/
def orderFields : List (String × JValue) :=
  [("openapi", JValue.str "3.0.0"),
   ("info", JValue.obj [("title", JValue.str "Test"), ("version", JValue.str "1.0")]),
   ("paths", JValue.obj
     [("/z", JValue.obj
        [("post", JValue.obj [("responses", JValue.obj [])]),
         ("get", JValue.obj [("responses", JValue.obj [])])]),
      ("/a", JValue.obj
        [("delete", JValue.obj [("responses", JValue.obj [])]),
         ("get", JValue.obj [("responses", JValue.obj [])])])])]

/-- C5: for every raw mapping document (with distinct path keys, as any
document read from YAML/JSON has) that normalizes successfully, the
normalized endpoint list is sorted so that the (path, method) pairs are in
ascending lexicographic order — paths lexicographic, then methods
lexicographic within a path — independent of the key order of `paths` and
of the method keys in the source document. -/
theorem c5_endpoints_sorted (raw pathFields : List (String × JValue)) (s : RawSpec)
    (hpaths : (dictLookup raw "paths").getD (JValue.obj []) = JValue.obj pathFields)
    (hnd : (pathFields.map Prod.fst).Nodup)
    (h : normalizeSpec (JValue.obj raw) = Except.ok s) :
    (s.endpoints.map (fun e => (e.path, e.method))).Pairwise pairLexLt := by
  obtain ⟨raw', hdoc, info, title, version, hbody⟩ := normalizeSpec_ok_body _ _ h
  injection hdoc with hdoc
  subst hdoc
  unfold normalizeSpecBody at hbody
  rw [option_bind_eq_some] at hbody
  obtain ⟨baseUrl, _, hbody⟩ := hbody
  rw [option_bind_eq_some] at hbody
  obtain ⟨schemas, _, hbody⟩ := hbody
  rw [option_bind_eq_some] at hbody
  obtain ⟨pathFields', hpf, hbody⟩ := hbody
  rw [option_bind_eq_some] at hbody
  obtain ⟨endpoints, hendp, hbody⟩ := hbody
  rw [option_bind_eq_some] at hbody
  obtain ⟨descv, _, hbody⟩ := hbody
  injection hbody with hbody
  have hpfeq : pathFields' = pathFields := by
    split at hpf
    · next kvs heq =>
      injection hpf with hpf
      rw [heq] at hpaths
      injection hpaths with hpaths
      rw [← hpf, hpaths]
    · exact Option.noConfusion hpf
  rw [hpfeq] at hendp
  obtain ⟨hpw, _⟩ := pySortStrings_strict (pathFields.map Prod.fst) hnd
  obtain ⟨tail, htail, _, hpwtail⟩ :=
    pathsFold_shape pathFields (JValue.obj raw) _ [] endpoints hpw hendp
  rw [List.nil_append] at htail
  subst htail
  rw [← hbody]
  exact hpwtail

set_option maxRecDepth 40000 in
/-- The sorting theorem at the ordering example: the claim's expected
endpoint order comes out, and the pairwise ascent holds. -/
theorem c5_witness :
    ∃ s, normalizeSpec (JValue.obj orderFields) = Except.ok s ∧
      s.endpoints.map (fun e => (e.path, e.method)) =
        [("/a", "DELETE"), ("/a", "GET"), ("/z", "GET"), ("/z", "POST")] ∧
      (s.endpoints.map (fun e => (e.path, e.method))).Pairwise pairLexLt := by
  obtain ⟨s, hs⟩ : ∃ s, normalizeSpec (JValue.obj orderFields) = Except.ok s := ⟨_, rfl⟩
  refine ⟨s, hs, ?_, ?_⟩
  · cases hs
    rfl
  · exact c5_endpoints_sorted orderFields _ s rfl (by decide) hs

/-- On a mapping whose defaulted `openapi` field is the string `s`,
`normalize_spec` runs the version check on `s`. -/
theorem normalizeSpec_obj_str (raw : List (String × JValue)) (s : String)
    (ho : (dictLookup raw "openapi").getD (JValue.str "") = JValue.str s) :
    normalizeSpec (JValue.obj raw) = normalizeVersionCheck raw s := by
  show (match (dictLookup raw "openapi").getD (JValue.str "") with
        | JValue.str s => normalizeVersionCheck raw s
        | _ => Except.error PyErr.dynamic) = normalizeVersionCheck raw s
  rw [ho]

/-- When the `info.title` fetch succeeds, the title check reduces to the
truthiness test on the fetched value. -/
theorem normalizeWithVersionOk_title (raw : List (String × JValue)) (t : JValue)
    (ht : pyGetP ((dictLookup raw "info").getD (JValue.obj [])) "title"
      JValue.null = some t) :
    normalizeWithVersionOk raw =
      if ¬ t.truthy then Except.error (PyErr.parse "Missing required field: info.title")
      else normalizeWithTitle raw t := by
  unfold normalizeWithVersionOk
  rw [ht]

/-- When the `info.version` fetch succeeds, the version check reduces to
the truthiness test on the fetched value. -/
theorem normalizeWithTitle_version (raw : List (String × JValue)) (t v : JValue)
    (hv : pyGetP ((dictLookup raw "info").getD (JValue.obj [])) "version"
      JValue.null = some v) :
    normalizeWithTitle raw t =
      if ¬ v.truthy then Except.error (PyErr.parse "Missing required field: info.version")
      else normalizeWithTitleVersion raw t v := by
  unfold normalizeWithTitle
  rw [hv]

/-- A mapping document passing every check the claim lists (openapi is the
string "3.0.0", info.title and info.version are truthy) on which
`normalize_spec` still does not return a normalized spec: `paths` is a
list, so iterating its keys raises a dynamic type error, not the spec
error. -/
theorem c6_counterexample :
    normalizeSpec (JValue.obj
      [("openapi", JValue.str "3.0.0"),
       ("info", JValue.obj [("title", JValue.str "T"), ("version", JValue.str "1.0")]),
       ("paths", JValue.arr [])]) = Except.error PyErr.dynamic := rfl

/-- C6 (corrected): over mapping documents whose defaulted `openapi` value
is a string and whose `info` title/version fetches do not themselves blow
up, `normalize_spec` raises the single spec-error type exactly when the
version does not start with "3." or `info.title` / `info.version` is
missing or falsy, with the claimed distinct messages (naming Swagger 2.x
when a truthy `swagger` field is present); non-mappings get the
"Spec must be an object" error. When all checks pass, the result is a
normalized spec OR a dynamic (non-spec) error — not always a spec, which
is the corrected part. -/
theorem c6_spec_errors (raw : List (String × JValue)) (s : String) (t v : JValue)
    (ho : (dictLookup raw "openapi").getD (JValue.str "") = JValue.str s)
    (ht : pyGetP ((dictLookup raw "info").getD (JValue.obj [])) "title"
      JValue.null = some t)
    (hv : pyGetP ((dictLookup raw "info").getD (JValue.obj [])) "version"
      JValue.null = some v) :
    (∀ doc : JValue, (∀ kvs, doc ≠ JValue.obj kvs) →
        normalizeSpec doc = Except.error (PyErr.parse "Spec must be an object")) ∧
    ((∃ m, normalizeSpec (JValue.obj raw) = Except.error (PyErr.parse m)) ↔
        (pyStartsWith s "3." = false ∨ t.truthy = false ∨ v.truthy = false)) ∧
    (pyStartsWith s "3." = false →
        ((dictLookup raw "swagger").getD (JValue.str "")).truthy = true →
        normalizeSpec (JValue.obj raw) = Except.error (PyErr.parse
          ("Swagger/OpenAPI 2.x not supported, found version " ++
            pyStr ((dictLookup raw "swagger").getD (JValue.str ""))))) ∧
    (pyStartsWith s "3." = false →
        ((dictLookup raw "swagger").getD (JValue.str "")).truthy = false →
        s = "" →
        normalizeSpec (JValue.obj raw) =
          Except.error (PyErr.parse "Missing 'openapi' version field")) ∧
    (pyStartsWith s "3." = false →
        ((dictLookup raw "swagger").getD (JValue.str "")).truthy = false →
        s ≠ "" →
        normalizeSpec (JValue.obj raw) =
          Except.error (PyErr.parse ("Unsupported OpenAPI version: " ++ s))) ∧
    (pyStartsWith s "3." = true → t.truthy = false →
        normalizeSpec (JValue.obj raw) =
          Except.error (PyErr.parse "Missing required field: info.title")) ∧
    (pyStartsWith s "3." = true → t.truthy = true → v.truthy = false →
        normalizeSpec (JValue.obj raw) =
          Except.error (PyErr.parse "Missing required field: info.version")) ∧
    (pyStartsWith s "3." = true → t.truthy = true → v.truthy = true →
        normalizeSpec (JValue.obj raw) = Except.error PyErr.dynamic ∨
        ∃ spc, normalizeSpec (JValue.obj raw) = Except.ok spc) := by
  have hvc : normalizeSpec (JValue.obj raw) = normalizeVersionCheck raw s :=
    normalizeSpec_obj_str raw s ho
  have hnm : ∀ doc : JValue, (∀ kvs, doc ≠ JValue.obj kvs) →
      normalizeSpec doc = Except.error (PyErr.parse "Spec must be an object") := by
    intro doc hne
    cases doc with
    | obj kvs => exact absurd rfl (hne kvs)
    | null => rfl
    | bool b => rfl
    | int n => rfl
    | float x => rfl
    | str st => rfl
    | arr xs => rfl
  have hswc : pyStartsWith s "3." = false →
      ((dictLookup raw "swagger").getD (JValue.str "")).truthy = true →
      normalizeSpec (JValue.obj raw) = Except.error (PyErr.parse
        ("Swagger/OpenAPI 2.x not supported, found version " ++
          pyStr ((dictLookup raw "swagger").getD (JValue.str "")))) := by
    intro hns hsw
    rw [hvc]
    unfold normalizeVersionCheck
    rw [if_pos (by simp [hns]), if_pos hsw]
  have hmissc : pyStartsWith s "3." = false →
      ((dictLookup raw "swagger").getD (JValue.str "")).truthy = false →
      s = "" →
      normalizeSpec (JValue.obj raw) =
        Except.error (PyErr.parse "Missing 'openapi' version field") := by
    intro hns hsw hse
    rw [hvc]
    unfold normalizeVersionCheck
    rw [if_pos (by simp [hns]), if_neg (by simp [hsw]), if_pos hse]
  have hunsc : pyStartsWith s "3." = false →
      ((dictLookup raw "swagger").getD (JValue.str "")).truthy = false →
      s ≠ "" →
      normalizeSpec (JValue.obj raw) =
        Except.error (PyErr.parse ("Unsupported OpenAPI version: " ++ s)) := by
    intro hns hsw hse
    rw [hvc]
    unfold normalizeVersionCheck
    rw [if_pos (by simp [hns]), if_neg (by simp [hsw]), if_neg hse]
  have htitlec : pyStartsWith s "3." = true → t.truthy = false →
      normalizeSpec (JValue.obj raw) =
        Except.error (PyErr.parse "Missing required field: info.title") := by
    intro hs3 htf
    rw [hvc]
    unfold normalizeVersionCheck
    rw [if_neg (by simp [hs3]), normalizeWithVersionOk_title raw t ht,
      if_pos (by simp [htf])]
  have hversc : pyStartsWith s "3." = true → t.truthy = true → v.truthy = false →
      normalizeSpec (JValue.obj raw) =
        Except.error (PyErr.parse "Missing required field: info.version") := by
    intro hs3 htt hvf
    rw [hvc]
    unfold normalizeVersionCheck
    rw [if_neg (by simp [hs3]), normalizeWithVersionOk_title raw t ht,
      if_neg (by simp [htt]), normalizeWithTitle_version raw t v hv,
      if_pos (by simp [hvf])]
  have hfinalc : pyStartsWith s "3." = true → t.truthy = true → v.truthy = true →
      normalizeSpec (JValue.obj raw) = Except.error PyErr.dynamic ∨
      ∃ spc, normalizeSpec (JValue.obj raw) = Except.ok spc := by
    intro hs3 htt hvt
    rw [hvc]
    unfold normalizeVersionCheck
    rw [if_neg (by simp [hs3]), normalizeWithVersionOk_title raw t ht,
      if_neg (by simp [htt]), normalizeWithTitle_version raw t v hv,
      if_neg (by simp [hvt])]
    unfold normalizeWithTitleVersion
    cases hb : normalizeSpecBody raw (JValue.obj raw)
        ((dictLookup raw "info").getD (JValue.obj [])) t v with
    | none =>
      left
      rfl
    | some spc =>
      right
      exact ⟨spc, rfl⟩
  have hvbad : pyStartsWith s "3." = false →
      ∃ m, normalizeSpec (JValue.obj raw) = Except.error (PyErr.parse m) := by
    intro hns
    cases hswt : ((dictLookup raw "swagger").getD (JValue.str "")).truthy with
    | true => exact ⟨_, hswc hns hswt⟩
    | false =>
      by_cases hse : s = ""
      · exact ⟨_, hmissc hns hswt hse⟩
      · exact ⟨_, hunsc hns hswt hse⟩
  have hiff : (∃ m, normalizeSpec (JValue.obj raw) = Except.error (PyErr.parse m)) ↔
      (pyStartsWith s "3." = false ∨ t.truthy = false ∨ v.truthy = false) := by
    constructor
    · rintro ⟨m, hm⟩
      by_contra hcon
      push_neg at hcon
      obtain ⟨ha, hb, hc⟩ := hcon
      have hs3 : pyStartsWith s "3." = true := by
        cases hx : pyStartsWith s "3."
        · exact absurd hx ha
        · rfl
      have htt : t.truthy = true := by
        cases hx : t.truthy
        · exact absurd hx hb
        · rfl
      have hvt : v.truthy = true := by
        cases hx : v.truthy
        · exact absurd hx hc
        · rfl
      rcases hfinalc hs3 htt hvt with hd | ⟨spc, hok⟩
      · rw [hm] at hd
        injection hd with hd
        exact PyErr.noConfusion hd
      · rw [hm] at hok
        exact Except.noConfusion hok
    · rintro (ha | hb | hc)
      · exact hvbad ha
      · cases hx : pyStartsWith s "3."
        · exact hvbad hx
        · exact ⟨_, htitlec hx hb⟩
      · cases hx : pyStartsWith s "3."
        · exact hvbad hx
        · cases hy : t.truthy
          · exact ⟨_, htitlec hx hy⟩
          · exact ⟨_, hversc hx hy hc⟩
  exact ⟨hnm, hiff, hswc, hmissc, hunsc, htitlec, hversc, hfinalc⟩

/-- The error characterization at concrete inputs: a boolean document gets
the mapping error, and a swagger-2.0 document gets the spec error naming
Swagger/OpenAPI 2.x with the found version in the message. -/
theorem c6_witness :
    normalizeSpec (JValue.bool true) = Except.error (PyErr.parse "Spec must be an object") ∧
    normalizeSpec (JValue.obj [("swagger", JValue.str "2.0")]) =
      Except.error (PyErr.parse "Swagger/OpenAPI 2.x not supported, found version 2.0") ∧
    (∃ m, normalizeSpec (JValue.obj [("swagger", JValue.str "2.0")]) =
      Except.error (PyErr.parse m)) := by
  have h := c6_spec_errors [("swagger", JValue.str "2.0")] "" JValue.null JValue.null
    rfl rfl rfl
  refine ⟨h.1 (JValue.bool true) (fun kvs hk => JValue.noConfusion hk), ?_, ?_⟩
  · exact h.2.2.1 rfl rfl
  · exact ⟨_, h.2.2.1 rfl rfl⟩
